import Mathlib

/-!
Verification of the bulk content importer of the `cloud-exam-be` repository.

The repository contains three one-shot import scripts (question topics,
question tags, questions) that read an array of records from a JSON file,
normalize rich-text fields into a block format, resolve name references
against in-memory caches, skip or create records against a content store,
and report created/skipped/failed counts.

This file gives a shallow embedding of those scripts as pure Lean
functions.  Effects are made explicit:

* the content store is a value (lists of existing names / tag rows /
  question codes); a successful create appends the new record's natural
  key to the store, so later existence checks in the same run observe it;
* the success or failure of each create call is an oracle `createOk`
  indexed by the record's position;
* `Date.now().toString(36)` and the random suffix of `generateCode` are
  oracles `ts rnd : Nat → String` indexed by the record's position;
* each run returns, besides the `created`/`skipped`/`failed` counters,
  the list of create requests actually submitted to the store (`trace`)
  and, for fatal inputs, the diagnostic emitted.

JavaScript truthiness is modelled explicitly: a missing field or the
empty string is falsy, arrays are always truthy.
-/

namespace CloudExamBE

/-! ### Rich text blocks -/

/-- One child of a rich-text block, e.g. `{ type: 'text', text: s }`. -/
structure TextChild where
  type : String
  text : String
deriving DecidableEq, Repr

/-- One rich-text block, e.g. `{ type: 'paragraph', children: [...] }`. -/
structure Block where
  type : String
  children : List TextChild
deriving DecidableEq, Repr

/-- A JSON value appearing in a textual field: absent/null, a string, an
array of blocks, or some other value (whose JS truthiness is recorded). -/
inductive Content where
  | nullC : Content
  | strC : String → Content
  | arrC : List Block → Content
  | otherC : Bool → Content
deriving DecidableEq, Repr

/-- JS truthiness of a `Content` value: `null` and `""` are falsy, arrays
are always truthy. -/
def contentTruthy : Content → Bool
  | .nullC => false
  | .strC s => !(s == "")
  | .arrC _ => true
  | .otherC t => t

/-- JS truthiness of an optional string field: missing and `""` are falsy. -/
def strTruthy : Option String → Bool
  | none => false
  | some s => !(s == "")

/-- `convertToBlocks` from the questions import script: `null` for falsy
input, arrays pass through unchanged, a string becomes one paragraph block
with a single text child, anything else becomes `null`. -/
def convertToBlocks (content : Content) : Option (List Block) :=
  if !(contentTruthy content) then none
  else
    match content with
    | .arrC blocks => some blocks
    | .strC s => some [{ type := "paragraph", children := [{ type := "text", text := s }] }]
    | _ => none

/-- `convertDescriptionToBlocks` from the topics import script; its body is
identical to `convertToBlocks`. -/
def convertDescriptionToBlocks (description : Content) : Option (List Block) :=
  if !(contentTruthy description) then none
  else
    match description with
    | .arrC blocks => some blocks
    | .strC s => some [{ type := "paragraph", children := [{ type := "text", text := s }] }]
    | _ => none

/-! ### Run results and input files -/

/-- The `{ created, skipped, failed }` counters returned by each import. -/
structure ImportResult where
  created : Nat
  skipped : Nat
  failed : Nat
deriving DecidableEq, Repr

def zeroResult : ImportResult := { created := 0, skipped := 0, failed := 0 }

/-- The result of locating and parsing the input file: the file may be
missing, fail to parse as JSON, parse to a non-array value, or parse to an
array of records. -/
inductive InputFile (α : Type) where
  | missing : InputFile α
  | unparseable : InputFile α
  | notAnArray : InputFile α
  | parsed : List α → InputFile α
deriving DecidableEq

/-- Output of a run of the topics or tags script: counters, the create
requests submitted to the store, and the fatal diagnostic if the run
aborted before processing records. -/
structure ScriptOutput (ε : Type) where
  result : ImportResult
  trace : List ε
  diag : Option String
deriving DecidableEq, Repr

/-! ### Topics import script (`scripts/import-question-topics.js`) -/

/-- One record of the topics input file: `{ name, description }`. -/
structure TopicRecord where
  name : Option String
  description : Content
deriving DecidableEq, Repr

/-- The data of a topic create request: `{ name, description }` with the
description normalized to blocks. -/
structure TopicEntry where
  name : String
  description : Option (List Block)
deriving DecidableEq, Repr

/-- `checkExistingTopic`: the store query
`findMany({ filters: { name: { $eq: name } } })` followed by
`existing.length > 0`.  The topic store is the list of existing topic
names. -/
def checkExistingTopic (store : List String) (name : String) : Bool :=
  decide (0 < (store.filter (fun m => decide (m = name))).length)

/-- The record loop of `importQuestionTopics`.  `createOk i` tells whether
the create request for the record at position `i` succeeds; a successful
create appends the new topic's name to the store, so later existence
checks in the same run observe it.  Returns the counters and the list of
submitted create requests. -/
def goTopics (skipExisting dryRun : Bool) (createOk : Nat → Bool) :
    Nat → List String → List TopicRecord → ImportResult × List TopicEntry
  | _, _, [] => (zeroResult, [])
  | i, store, record :: rest =>
    if !(strTruthy record.name) then
      let out := goTopics skipExisting dryRun createOk (i + 1) store rest
      ({ out.1 with failed := out.1.failed + 1 }, out.2)
    else
      let name := record.name.getD ""
      if skipExisting && checkExistingTopic store name then
        let out := goTopics skipExisting dryRun createOk (i + 1) store rest
        ({ out.1 with skipped := out.1.skipped + 1 }, out.2)
      else
        let entry : TopicEntry :=
          { name := name, description := convertDescriptionToBlocks record.description }
        if dryRun then
          let out := goTopics skipExisting dryRun createOk (i + 1) store rest
          ({ out.1 with created := out.1.created + 1 }, out.2)
        else if createOk i then
          let out := goTopics skipExisting dryRun createOk (i + 1) (store ++ [name]) rest
          ({ out.1 with created := out.1.created + 1 }, entry :: out.2)
        else
          let out := goTopics skipExisting dryRun createOk (i + 1) store rest
          ({ out.1 with failed := out.1.failed + 1 }, entry :: out.2)

/-- `importQuestionTopics`: aborts with a zero result and a diagnostic on
a missing file, a JSON parse failure, or a non-array top level; otherwise
runs the record loop. -/
def importQuestionTopics (input : InputFile TopicRecord) (skipExisting dryRun : Bool)
    (createOk : Nat → Bool) (store : List String) : ScriptOutput TopicEntry :=
  match input with
  | .missing => ⟨zeroResult, [], some "Data file not found"⟩
  | .unparseable => ⟨zeroResult, [], some "Failed to parse JSON file"⟩
  | .notAnArray => ⟨zeroResult, [], some "JSON file must contain an array of question topics"⟩
  | .parsed records =>
    let out := goTopics skipExisting dryRun createOk 0 store records
    ⟨out.1, out.2, none⟩

/-! ### Tags import script (`src/unnamed/part_001`) -/

/-- One record of the tags input file: `{ name, slug? }`. -/
structure TagRecord where
  name : Option String
  slug : Option String
deriving DecidableEq, Repr

/-- An existing tag row in the content store, with its `name` and `slug`. -/
structure TagRow where
  name : String
  slug : String
deriving DecidableEq, Repr

/-- The data of a tag create request: `{ name, slug }`. -/
structure TagEntry where
  name : String
  slug : String
deriving DecidableEq, Repr

/-- JS `toLowerCase()`, character by character. -/
def jsToLower (s : String) : String := ⟨s.data.map Char.toLower⟩

/-- JS `trim()`: strip whitespace from both ends. -/
def jsTrim (s : String) : String :=
  ⟨((s.data.dropWhile Char.isWhitespace).reverse.dropWhile Char.isWhitespace).reverse⟩

/-- JS `\w` character class: ASCII letters, digits and underscore. -/
def isWordChar (c : Char) : Bool := c.isAlphanum || c == '_'

/-- Characters kept by `replace(/[^\w\s-]/g, '')`. -/
def slugKeep (c : Char) : Bool := isWordChar c || c.isWhitespace || c == '-'

/-- The `[\s_-]` character class collapsed to a dash. -/
def isSlugSep (c : Char) : Bool := c.isWhitespace || c == '_' || c == '-'

/-- `replace(/[\s_-]+/g, '-')`: each run of separator characters becomes a
single dash. -/
def collapseSeps : List Char → List Char
  | [] => []
  | c :: cs =>
    if isSlugSep c then '-' :: collapseSeps (cs.dropWhile isSlugSep)
    else c :: collapseSeps cs
termination_by l => l.length
decreasing_by
  · exact Nat.lt_succ_of_le (List.Sublist.length_le (List.dropWhile_sublist isSlugSep))
  · exact Nat.lt_succ_self cs.length

/-- `generateSlug`: lowercase, trim, drop characters outside `[\w\s-]`,
collapse separator runs to single dashes, strip leading and trailing
dashes. -/
def generateSlug (str : String) : String :=
  let kept := ((jsTrim (jsToLower str)).data.filter slugKeep)
  let collapsed := collapseSeps kept
  let noLead := collapsed.dropWhile (fun c => c == '-')
  ⟨(noLead.reverse.dropWhile (fun c => c == '-')).reverse⟩

/-- The slug actually used for a tag record:
`tag.slug || generateSlug(tag.name)`. -/
def slugUsed (record : TagRecord) : String :=
  match record.slug with
  | some s => if s = "" then generateSlug (record.name.getD "") else s
  | none => generateSlug (record.name.getD "")

/-- `checkExistingTag`: two store queries, one filtering on `name`, one on
`slug`; the tag is reported existing when either result is non-empty. -/
def checkExistingTag (store : List TagRow) (name slug : String) : Bool :=
  let existingByName := store.filter (fun t => decide (t.name = name))
  let existingBySlug := store.filter (fun t => decide (t.slug = slug))
  decide (0 < existingByName.length) || decide (0 < existingBySlug.length)

/-- The record loop of `importQuestionTags`; mirrors `goTopics` with the
name-or-slug existence check, and a successful create appends the new
`{name, slug}` row to the store. -/
def goTags (skipExisting dryRun : Bool) (createOk : Nat → Bool) :
    Nat → List TagRow → List TagRecord → ImportResult × List TagEntry
  | _, _, [] => (zeroResult, [])
  | i, store, record :: rest =>
    if !(strTruthy record.name) then
      let out := goTags skipExisting dryRun createOk (i + 1) store rest
      ({ out.1 with failed := out.1.failed + 1 }, out.2)
    else
      let name := record.name.getD ""
      let slug := slugUsed record
      if skipExisting && checkExistingTag store name slug then
        let out := goTags skipExisting dryRun createOk (i + 1) store rest
        ({ out.1 with skipped := out.1.skipped + 1 }, out.2)
      else
        let entry : TagEntry := { name := name, slug := slug }
        if dryRun then
          let out := goTags skipExisting dryRun createOk (i + 1) store rest
          ({ out.1 with created := out.1.created + 1 }, out.2)
        else if createOk i then
          let out := goTags skipExisting dryRun createOk (i + 1)
            (store ++ [{ name := name, slug := slug }]) rest
          ({ out.1 with created := out.1.created + 1 }, entry :: out.2)
        else
          let out := goTags skipExisting dryRun createOk (i + 1) store rest
          ({ out.1 with failed := out.1.failed + 1 }, entry :: out.2)

/-- `importQuestionTags`: fatal-input handling plus the record loop. -/
def importQuestionTags (input : InputFile TagRecord) (skipExisting dryRun : Bool)
    (createOk : Nat → Bool) (store : List TagRow) : ScriptOutput TagEntry :=
  match input with
  | .missing => ⟨zeroResult, [], some "Data file not found"⟩
  | .unparseable => ⟨zeroResult, [], some "Failed to parse JSON file"⟩
  | .notAnArray => ⟨zeroResult, [], some "JSON file must contain an array of question tags"⟩
  | .parsed records =>
    let out := goTags skipExisting dryRun createOk 0 store records
    ⟨out.1, out.2, none⟩

/-! ### Questions import script (`src/unnamed/part_000`) -/

/-- An existing, published topic as loaded into the cache. -/
structure Topic where
  documentId : String
  name : String
deriving DecidableEq, Repr

/-- An existing, published tag as loaded into the cache. -/
structure Tag where
  documentId : String
  name : String
deriving DecidableEq, Repr

/-- Lookup in a JS-object cache built by successive assignments: the last
binding of a key wins. -/
def cacheLookup {α : Type} : List (String × α) → String → Option α
  | [], _ => none
  | p :: rest, key =>
    match cacheLookup rest key with
    | some v => some v
    | none => if p.1 = key then some p.2 else none

/-- `loadTopicsCache`: every published topic keyed by its lowercased name. -/
def loadTopicsCache (topics : List Topic) : List (String × Topic) :=
  topics.map (fun t => (jsToLower t.name, t))

/-- `loadTagsCache`: every published tag keyed by its lowercased name. -/
def loadTagsCache (tags : List Tag) : List (String × Tag) :=
  tags.map (fun t => (jsToLower t.name, t))

/-- `findTopicByName`: `null` for a falsy name, otherwise the cache entry
under the lowercased name (or `null`). -/
def findTopicByName (cache : List (String × Topic)) (name : String) : Option Topic :=
  if name = "" then none
  else cacheLookup cache (jsToLower name)

/-- `findTagsByNames`: looks each name up under its lowercased form and
keeps the hits, in order. -/
def findTagsByNames (cache : List (String × Tag)) (names : List String) : List Tag :=
  names.filterMap (fun n => cacheLookup cache (jsToLower n))

/-- `checkExistingQuestion`: `false` for a falsy code, otherwise the store
query filtering on `code` followed by `existing.length > 0`.  The question
store is the list of existing question codes. -/
def checkExistingQuestion (codes : List String) (code : Option String) : Bool :=
  match code with
  | none => false
  | some c =>
    if c = "" then false
    else decide (0 < (codes.filter (fun m => decide (m = c))).length)

/-- `generateCode`: `` `Q-${timestamp}-${random}-${index}` ``.  The
timestamp (`Date.now().toString(36)`) and random suffix are passed in as
strings; the index is rendered in decimal. -/
def generateCode (timestamp random : String) (index : Nat) : String :=
  "Q-" ++ timestamp ++ "-" ++ random ++ "-" ++ Nat.repr index

/-- One answer option `{ id, content }`. -/
structure Answer where
  id : String
  content : String
deriving DecidableEq, Repr

/-- One record of the questions input file.  `Option` marks fields that
may be absent (or, for the list fields, not an array). -/
structure QuestionRecord where
  code : Option String
  question : Content
  type : Option String
  answers : Option (List Answer)
  correctAnswer : Option (List String)
  explanation : Content
  difficulty : Option String
  source : Option String
  version : Option Nat
  topic : Option String
  tags : Option (List String)
deriving DecidableEq, Repr

/-- The data of a question create request, as assembled by the script. -/
structure QuestionEntry where
  code : String
  question : Option (List Block)
  type : String
  answers : List Answer
  correctAnswer : List String
  explanation : Option (List Block)
  difficulty : String
  source : Option String
  version : Nat
  question_topic : Option String
  question_tags : List String
deriving DecidableEq, Repr

/-- `v || dflt` for an optional string field. -/
def orDefault (v : Option String) (dflt : String) : String :=
  match v with
  | some s => if s = "" then dflt else s
  | none => dflt

/-- `q.version || 1`: `0` is falsy in JS. -/
def versionOr (v : Option Nat) : Nat :=
  match v with
  | some n => if n = 0 then 1 else n
  | none => 1

/-- `q.source || null`. -/
def sourceOrNull (v : Option String) : Option String :=
  match v with
  | some s => if s = "" then none else some s
  | none => none

/-- `q.answers && Array.isArray(q.answers) && q.answers.length > 0`. -/
def validAnswers : Option (List Answer) → Bool
  | none => false
  | some l => !l.isEmpty

/-- The same check for `q.correctAnswer`. -/
def validCorrect : Option (List String) → Bool
  | none => false
  | some l => !l.isEmpty

/-- JS `Set.add`: append the element if it is not already present. -/
def setAdd (s : List String) (x : String) : List String :=
  if x ∈ s then s else s ++ [x]

/-- The missing-tags bookkeeping of the question loop: every tag name
whose lowercased form is absent from the cache is added to the set. -/
def addMissingTags (cache : List (String × Tag)) (missing : List String)
    (names : List String) : List String :=
  names.foldl
    (fun acc n =>
      match cacheLookup cache (jsToLower n) with
      | some _ => acc
      | none => setAdd acc n)
    missing

/-- Topic resolution for one record: the linked `documentId` (or `null`)
and the updated missing-topics set. -/
def resolveTopic (cache : List (String × Topic)) (topic : Option String)
    (missing : List String) : Option String × List String :=
  if strTruthy topic then
    match findTopicByName cache (topic.getD "") with
    | some t => (some t.documentId, missing)
    | none => (none, setAdd missing (topic.getD ""))
  else (none, missing)

/-- Tag resolution for one record: the linked `documentId`s and the
updated missing-tags set. -/
def resolveTags (cache : List (String × Tag)) (tags : Option (List String))
    (missing : List String) : List String × List String :=
  match tags with
  | some names =>
    ((findTagsByNames cache names).map (fun t => t.documentId),
     addMissingTags cache missing names)
  | none => ([], missing)

/-- The create-request data assembled for one question record. -/
def prepareEntry (code : String) (q : QuestionRecord) (topicId : Option String)
    (tagIds : List String) : QuestionEntry :=
  { code := code
    question := convertToBlocks q.question
    type := orDefault q.type "single"
    answers := q.answers.getD []
    correctAnswer := q.correctAnswer.getD []
    explanation := convertToBlocks q.explanation
    difficulty := orDefault q.difficulty "easy"
    source := sourceOrNull q.source
    version := versionOr q.version
    question_topic := topicId
    question_tags := tagIds }

/-- Per-record outcome: which of the three counters is incremented. -/
inductive Outcome where
  | createdO : Outcome
  | skippedO : Outcome
  | failedO : Outcome
deriving DecidableEq, Repr

/-- State produced by processing one question record: the outcome, the
create request submitted (if any), and the updated store codes and
missing-reference sets. -/
structure QStep where
  outcome : Outcome
  submitted : Option QuestionEntry
  codes : List String
  missingTopics : List String
  missingTags : List String
deriving DecidableEq, Repr

/-- Processing of one question record, mirroring the loop body of
`importQuestions`: generate the code if absent, validate, optionally skip,
resolve references, assemble the entry, then dry-run-count / create. -/
def processQuestion (skipExisting dryRun createOk : Bool) (timestamp random : String)
    (topicsCache : List (String × Topic)) (tagsCache : List (String × Tag))
    (index : Nat) (codes missT missG : List String) (q : QuestionRecord) : QStep :=
  let code := if strTruthy q.code then q.code.getD "" else generateCode timestamp random index
  if !(contentTruthy q.question) then
    ⟨.failedO, none, codes, missT, missG⟩
  else if !(validAnswers q.answers) then
    ⟨.failedO, none, codes, missT, missG⟩
  else if !(validCorrect q.correctAnswer) then
    ⟨.failedO, none, codes, missT, missG⟩
  else if skipExisting && strTruthy q.code && checkExistingQuestion codes q.code then
    ⟨.skippedO, none, codes, missT, missG⟩
  else
    let tRes := resolveTopic topicsCache q.topic missT
    let gRes := resolveTags tagsCache q.tags missG
    let entry := prepareEntry code q tRes.1 gRes.1
    if dryRun then ⟨.createdO, none, codes, tRes.2, gRes.2⟩
    else if createOk then ⟨.createdO, some entry, codes ++ [entry.code], tRes.2, gRes.2⟩
    else ⟨.failedO, some entry, codes, tRes.2, gRes.2⟩

/-- Add one to the counter selected by the outcome. -/
def bump (o : Outcome) (r : ImportResult) : ImportResult :=
  match o with
  | .createdO => { r with created := r.created + 1 }
  | .skippedO => { r with skipped := r.skipped + 1 }
  | .failedO => { r with failed := r.failed + 1 }

/-- Output of the question record loop: counters, submitted create
requests, and the missing-topics and missing-tags sets reported at the
end of the run. -/
structure QRun where
  result : ImportResult
  trace : List QuestionEntry
  missingTopics : List String
  missingTags : List String
deriving DecidableEq, Repr

/-- The record loop of `importQuestions`. -/
def goQuestions (skipExisting dryRun : Bool) (createOk : Nat → Bool) (ts rnd : Nat → String)
    (topicsCache : List (String × Topic)) (tagsCache : List (String × Tag)) :
    Nat → List String → List String → List String → List QuestionRecord → QRun
  | _, _, missT, missG, [] => ⟨zeroResult, [], missT, missG⟩
  | i, codes, missT, missG, q :: rest =>
    let s := processQuestion skipExisting dryRun (createOk i) (ts i) (rnd i)
      topicsCache tagsCache i codes missT missG q
    let out := goQuestions skipExisting dryRun createOk ts rnd topicsCache tagsCache
      (i + 1) s.codes s.missingTopics s.missingTags rest
    ⟨bump s.outcome out.result, s.submitted.toList ++ out.trace,
     out.missingTopics, out.missingTags⟩

/-- The content store seen by the questions import: the published topics
and tags (used to warm the caches) and the existing question codes. -/
structure QuestionStore where
  topics : List Topic
  tags : List Tag
  codes : List String
deriving DecidableEq, Repr

/-- Output of a whole `importQuestions` run. -/
structure QOutput where
  result : ImportResult
  trace : List QuestionEntry
  missingTopics : List String
  missingTags : List String
  diag : Option String
deriving DecidableEq, Repr

/-- `importQuestions`: fatal-input handling, cache warm-up from the whole
store, then the record loop. -/
def importQuestions (input : InputFile QuestionRecord) (skipExisting dryRun : Bool)
    (createOk : Nat → Bool) (ts rnd : Nat → String) (store : QuestionStore) : QOutput :=
  match input with
  | .missing => ⟨zeroResult, [], [], [], some "Data file not found"⟩
  | .unparseable => ⟨zeroResult, [], [], [], some "Failed to parse JSON file"⟩
  | .notAnArray => ⟨zeroResult, [], [], [], some "JSON file must contain an array of questions"⟩
  | .parsed records =>
    let topicsCache := loadTopicsCache store.topics
    let tagsCache := loadTagsCache store.tags
    let out := goQuestions skipExisting dryRun createOk ts rnd topicsCache tagsCache
      0 store.codes [] [] records
    ⟨out.result, out.trace, out.missingTopics, out.missingTags, none⟩

/-! ### Auxiliary notions used by the statements -/

/-- The natural key a question record ends up with at position `i`: its
supplied code if truthy, else the generated one. -/
def codeUsed (ts rnd : Nat → String) (i : Nat) (q : QuestionRecord) : String :=
  if strTruthy q.code then q.code.getD "" else generateCode (ts i) (rnd i) i

/-- The codes supplied (truthily) by a list of records. -/
def suppliedCodes (rs : List QuestionRecord) : List String :=
  rs.filterMap (fun r => if strTruthy r.code then some (r.code.getD "") else none)

/-- No record's used code is supplied again by a later record: under this
condition a create in the run cannot change the answer of a later
existence check. -/
def freshCodes (ts rnd : Nat → String) : Nat → List QuestionRecord → Bool
  | _, [] => true
  | i, q :: rest =>
    !((suppliedCodes rest).contains (codeUsed ts rnd i q)) && freshCodes ts rnd (i + 1) rest

/-- The names of the valid records of a tag input list. -/
def tagNamesOf (rs : List TagRecord) : List String :=
  rs.filterMap (fun r => if strTruthy r.name then some (r.name.getD "") else none)

/-- The used slugs of the valid records of a tag input list. -/
def tagSlugsOf (rs : List TagRecord) : List String :=
  rs.filterMap (fun r => if strTruthy r.name then some (slugUsed r) else none)

/-- No tag record's name or used slug is queried again by a later valid
record: under this condition a create in the run cannot change the answer
of a later existence check. -/
def freshTagKeys : List TagRecord → Bool
  | [] => true
  | r :: rest =>
    !((tagNamesOf rest).contains (r.name.getD "")) &&
    !((tagSlugsOf rest).contains (slugUsed r)) &&
    freshTagKeys rest

/-- The decimal digits of a natural number, most significant first. -/
def natDigits (n : Nat) : List Char :=
  if h : n / 10 = 0 then [Nat.digitChar (n % 10)]
  else natDigits (n / 10) ++ [Nat.digitChar (n % 10)]
decreasing_by
  exact Nat.div_lt_self (Nat.pos_of_ne_zero (fun h0 => h (h0 ▸ Nat.zero_div 10))) (by decide)

/-! ### Helper lemmas -/

theorem bump_created (r : ImportResult) : bump .createdO r = { r with created := r.created + 1 } :=
  rfl

theorem bump_sum (o : Outcome) (r : ImportResult) :
    (bump o r).created + (bump o r).skipped + (bump o r).failed =
      r.created + r.skipped + r.failed + 1 := by
  cases o <;> simp [bump] <;> omega

/-- Every record of the topic loop increments exactly one counter. -/
theorem goTopics_sum (sE dR : Bool) (ok : Nat → Bool) :
    ∀ (rs : List TopicRecord) (i : Nat) (store : List String),
      (goTopics sE dR ok i store rs).1.created + (goTopics sE dR ok i store rs).1.skipped +
        (goTopics sE dR ok i store rs).1.failed = rs.length := by
  intro rs
  induction rs with
  | nil => intro i store; simp [goTopics, zeroResult]
  | cons r rest ih =>
    intro i store
    simp only [goTopics, List.length_cons]
    repeat' split
    all_goals simp only []
    all_goals (first
      | (have h := ih (i + 1) store; omega)
      | (have h := ih (i + 1) (store ++ [r.name.getD ""]); omega))

/-- Every record of the tag loop increments exactly one counter. -/
theorem goTags_sum (sE dR : Bool) (ok : Nat → Bool) :
    ∀ (rs : List TagRecord) (i : Nat) (store : List TagRow),
      (goTags sE dR ok i store rs).1.created + (goTags sE dR ok i store rs).1.skipped +
        (goTags sE dR ok i store rs).1.failed = rs.length := by
  intro rs
  induction rs with
  | nil => intro i store; simp [goTags, zeroResult]
  | cons r rest ih =>
    intro i store
    simp only [goTags, List.length_cons]
    repeat' split
    all_goals simp only []
    all_goals (first
      | (have h := ih (i + 1) store; omega)
      | (have h := ih (i + 1) (store ++ [{ name := r.name.getD "", slug := slugUsed r }]); omega))

/-- Every record of the question loop increments exactly one counter. -/
theorem goQuestions_sum (sE dR : Bool) (ok : Nat → Bool) (ts rnd : Nat → String)
    (tC : List (String × Topic)) (gC : List (String × Tag)) :
    ∀ (rs : List QuestionRecord) (i : Nat) (codes missT missG : List String),
      (goQuestions sE dR ok ts rnd tC gC i codes missT missG rs).result.created +
        (goQuestions sE dR ok ts rnd tC gC i codes missT missG rs).result.skipped +
        (goQuestions sE dR ok ts rnd tC gC i codes missT missG rs).result.failed =
        rs.length := by
  intro rs
  induction rs with
  | nil => intro i codes missT missG; simp [goQuestions, zeroResult]
  | cons q rest ih =>
    intro i codes missT missG
    simp only [goQuestions, List.length_cons]
    generalize processQuestion sE dR (ok i) (ts i) (rnd i) tC gC i codes missT missG q = s
    have h := ih (i + 1) s.codes s.missingTopics s.missingTags
    have hb := bump_sum s.outcome
      (goQuestions sE dR ok ts rnd tC gC (i + 1) s.codes s.missingTopics s.missingTags
        rest).result
    omega

theorem cacheLookup_eq_none_of_forall {α : Type} {cache : List (String × α)} {key : String}
    (h : ∀ p ∈ cache, p.1 ≠ key) : cacheLookup cache key = none := by
  induction cache with
  | nil => rfl
  | cons p rest ih =>
    have hrest : cacheLookup rest key = none :=
      ih (fun q hq => h q (List.mem_cons_of_mem p hq))
    simp only [cacheLookup, hrest]
    simp [h p (List.mem_cons_self p rest)]

/-- With pairwise-distinct keys the last-wins lookup returns the unique
binding of the key. -/
theorem cacheLookup_of_nodup {α : Type} {cache : List (String × α)} {key : String} {v : α}
    (hnd : (cache.map Prod.fst).Nodup) (hmem : (key, v) ∈ cache) :
    cacheLookup cache key = some v := by
  induction cache with
  | nil => cases hmem
  | cons p rest ih =>
    simp only [List.map_cons, List.nodup_cons] at hnd
    rcases List.mem_cons.1 hmem with heq | hmem'
    · have hp1 : p.1 = key := by rw [← heq]
      have hrest : cacheLookup rest key = none := by
        refine cacheLookup_eq_none_of_forall (fun q hq hqk => hnd.1 ?_)
        rw [hp1, ← hqk]
        exact List.mem_map_of_mem Prod.fst hq
      simp only [cacheLookup, hrest, ← heq]
      simp
    · simp only [cacheLookup, ih hnd.2 hmem']

theorem natDigits_eq_single {n : Nat} (h : n / 10 = 0) :
    natDigits n = [Nat.digitChar (n % 10)] := by
  rw [natDigits]
  simp [h]

theorem natDigits_eq_append {n : Nat} (h : ¬(n / 10 = 0)) :
    natDigits n = natDigits (n / 10) ++ [Nat.digitChar (n % 10)] := by
  conv_lhs => rw [natDigits]
  simp [h]

theorem natDigits_length_pos (n : Nat) : 0 < (natDigits n).length := by
  by_cases h : n / 10 = 0
  · simp [natDigits_eq_single h]
  · simp [natDigits_eq_append h]

theorem digitChar_inj_lt : ∀ a < 10, ∀ b < 10, Nat.digitChar a = Nat.digitChar b → a = b := by
  decide

/-- The decimal rendering of a natural number is injective. -/
theorem natDigits_inj (n : Nat) : ∀ m : Nat, natDigits n = natDigits m → n = m := by
  induction n using Nat.strong_induction_on with
  | _ n ih =>
    intro m h
    by_cases h1 : n / 10 = 0 <;> by_cases h2 : m / 10 = 0
    · rw [natDigits_eq_single h1, natDigits_eq_single h2] at h
      have := digitChar_inj_lt (n % 10) (Nat.mod_lt n (by omega)) (m % 10)
        (Nat.mod_lt m (by omega)) (List.cons.inj h).1
      omega
    · rw [natDigits_eq_single h1, natDigits_eq_append h2] at h
      have hlen := congrArg List.length h
      have := natDigits_length_pos (m / 10)
      simp only [List.length_append, List.length_singleton, List.length_cons,
        List.length_nil] at hlen
      omega
    · rw [natDigits_eq_append h1, natDigits_eq_single h2] at h
      have hlen := congrArg List.length h
      have := natDigits_length_pos (n / 10)
      simp only [List.length_append, List.length_singleton, List.length_cons,
        List.length_nil] at hlen
      omega
    · rw [natDigits_eq_append h1, natDigits_eq_append h2] at h
      rcases List.append_inj' h (by simp) with ⟨hpre, hsuf⟩
      have hdiv : n / 10 = m / 10 :=
        ih (n / 10) (Nat.div_lt_self (by omega) (by decide)) (m / 10) hpre
      have hmod := digitChar_inj_lt (n % 10) (Nat.mod_lt n (by omega)) (m % 10)
        (Nat.mod_lt m (by omega)) (List.cons.inj hsuf).1
      omega

theorem natDigits_no_dash (n : Nat) : '-' ∉ natDigits n := by
  induction n using Nat.strong_induction_on with
  | _ n ih =>
    have hd : ∀ d < 10, Nat.digitChar d ≠ '-' := by decide
    by_cases h : n / 10 = 0
    · rw [natDigits_eq_single h]
      intro hmem
      exact hd (n % 10) (Nat.mod_lt n (by omega)) (List.mem_singleton.1 hmem).symm
    · simp only [natDigits_eq_append h, List.mem_append, List.mem_singleton]
      push_neg
      exact ⟨ih (n / 10) (Nat.div_lt_self (by omega) (by decide)),
             (hd (n % 10) (Nat.mod_lt n (by omega))).symm⟩

/-- `Nat.repr` agrees with `natDigits` once the fuel of its core loop is
unfolded. -/
theorem toDigitsCore_eq_natDigits :
    ∀ (fuel n : Nat) (acc : List Char), n < fuel →
      Nat.toDigitsCore 10 fuel n acc = natDigits n ++ acc := by
  intro fuel
  induction fuel with
  | zero => intro n acc h; omega
  | succ f ih =>
    intro n acc h
    by_cases h0 : n / 10 = 0
    · simp [Nat.toDigitsCore, h0, natDigits_eq_single h0]
    · simp only [Nat.toDigitsCore, h0, if_false]
      rw [ih (n / 10) _ (by omega)]
      rw [natDigits_eq_append h0]
      simp

theorem repr_eq_natDigits (n : Nat) : Nat.repr n = ⟨natDigits n⟩ := by
  show (Nat.toDigits 10 n).asString = _
  rw [Nat.toDigits, toDigitsCore_eq_natDigits (n + 1) n [] (Nat.lt_succ_self n)]
  simp [List.asString]

theorem repr_data (n : Nat) : (Nat.repr n).data = natDigits n := by
  rw [repr_eq_natDigits]

theorem dash_data : ("-" : String).data = ['-'] := rfl

/-- In `A ++ (c :: d) = B ++ (c :: e)` with `c` absent from `d` and `e`,
the parts after the last `c` agree. -/
theorem last_seg_eq {c : Char} (A B d e : List Char) (hd : c ∉ d) (he : c ∉ e)
    (h : A ++ (c :: d) = B ++ (c :: e)) : d = e := by
  have h1 : (c :: d) <:+ (B ++ (c :: e)) := h ▸ List.suffix_append A (c :: d)
  have h2 : (c :: e) <:+ (B ++ (c :: e)) := List.suffix_append B (c :: e)
  rcases List.suffix_or_suffix_of_suffix h1 h2 with hs | hs
  · rcases List.suffix_cons_iff.1 hs with heq | hs'
    · exact (List.cons.inj heq).2
    · exact absurd (hs'.subset (List.mem_cons_self c d)) he
  · rcases List.suffix_cons_iff.1 hs with heq | hs'
    · exact ((List.cons.inj heq).2).symm
    · exact absurd (hs'.subset (List.mem_cons_self c e)) hd

theorem generateCode_data (t r : String) (k : Nat) :
    (generateCode t r k).data = ("Q-" ++ t ++ "-" ++ r).data ++ ('-' :: natDigits k) := by
  simp [generateCode, String.data_append, repr_data, dash_data, List.append_assoc]

/-- The segment of a generated code after its final dash is the decimal
index, so codes generated at distinct indices differ, whatever the
timestamp and random parts are. -/
theorem generateCode_index_inj (t1 r1 t2 r2 : String) (i j : Nat)
    (h : generateCode t1 r1 i = generateCode t2 r2 j) : i = j := by
  have hdata := congrArg String.data h
  rw [generateCode_data, generateCode_data] at hdata
  exact natDigits_inj i j
    (last_seg_eq _ _ _ _ (natDigits_no_dash i) (natDigits_no_dash j) hdata)

theorem mem_setAdd_self (s : List String) (x : String) : x ∈ setAdd s x := by
  by_cases h : x ∈ s <;> simp [setAdd, h]

theorem mem_setAdd_of_mem {s : List String} {y : String} (x : String) (h : y ∈ s) :
    y ∈ setAdd s x := by
  by_cases hx : x ∈ s <;> simp [setAdd, hx, h]

theorem addMissingTags_cons (cache : List (String × Tag)) (missing : List String)
    (n : String) (ns : List String) :
    addMissingTags cache missing (n :: ns) =
      addMissingTags cache
        (match cacheLookup cache (jsToLower n) with
         | some _ => missing
         | none => setAdd missing n) ns := rfl

theorem mem_addMissingTags_of_mem (cache : List (String × Tag)) (names : List String)
    {missing : List String} {y : String} (h : y ∈ missing) :
    y ∈ addMissingTags cache missing names := by
  induction names generalizing missing with
  | nil => simpa [addMissingTags] using h
  | cons n ns ih =>
    rw [addMissingTags_cons]
    cases hc : cacheLookup cache (jsToLower n) with
    | some v => simpa [hc] using ih h
    | none => simpa [hc] using ih (mem_setAdd_of_mem n h)

theorem mem_addMissingTags_self (cache : List (String × Tag)) {names missing : List String}
    {m : String} (hm : m ∈ names) (hc : cacheLookup cache (jsToLower m) = none) :
    m ∈ addMissingTags cache missing names := by
  induction names generalizing missing with
  | nil => cases hm
  | cons n ns ih =>
    rw [addMissingTags_cons]
    rcases List.mem_cons.1 hm with rfl | hm'
    · simpa [hc] using mem_addMissingTags_of_mem cache ns (mem_setAdd_self missing m)
    · exact ih hm'

theorem resolveTopic_mono (tC : List (String × Topic)) (topic : Option String)
    (missT : List String) {x : String} (h : x ∈ missT) :
    x ∈ (resolveTopic tC topic missT).2 := by
  unfold resolveTopic
  repeat' split
  all_goals simp_all [mem_setAdd_of_mem]

theorem resolveTags_mono (gC : List (String × Tag)) (tags : Option (List String))
    (missG : List String) {x : String} (h : x ∈ missG) :
    x ∈ (resolveTags gC tags missG).2 := by
  unfold resolveTags
  split
  · exact mem_addMissingTags_of_mem _ _ h
  · exact h

theorem processQuestion_missT_mono (sE dR ok' : Bool) (t rn : String)
    (tC : List (String × Topic)) (gC : List (String × Tag)) (i : Nat)
    (codes missT missG : List String) (q : QuestionRecord) {x : String} (h : x ∈ missT) :
    x ∈ (processQuestion sE dR ok' t rn tC gC i codes missT missG q).missingTopics := by
  unfold processQuestion
  repeat' split
  all_goals first
    | exact h
    | exact resolveTopic_mono tC q.topic missT h

theorem processQuestion_missG_mono (sE dR ok' : Bool) (t rn : String)
    (tC : List (String × Topic)) (gC : List (String × Tag)) (i : Nat)
    (codes missT missG : List String) (q : QuestionRecord) {x : String} (h : x ∈ missG) :
    x ∈ (processQuestion sE dR ok' t rn tC gC i codes missT missG q).missingTags := by
  unfold processQuestion
  repeat' split
  all_goals first
    | exact h
    | exact resolveTags_mono gC q.tags missG h

/-- The missing-reference sets only ever grow during the run. -/
theorem goQuestions_missT_mono (sE dR : Bool) (ok : Nat → Bool) (ts rnd : Nat → String)
    (tC : List (String × Topic)) (gC : List (String × Tag)) :
    ∀ (rs : List QuestionRecord) (i : Nat) (codes missT missG : List String) {x : String},
      x ∈ missT →
      x ∈ (goQuestions sE dR ok ts rnd tC gC i codes missT missG rs).missingTopics := by
  intro rs
  induction rs with
  | nil => intro i codes missT missG x h; simpa [goQuestions] using h
  | cons q rest ih =>
    intro i codes missT missG x h
    simp only [goQuestions]
    exact ih _ _ _ _ (processQuestion_missT_mono sE dR (ok i) (ts i) (rnd i)
      tC gC i codes missT missG q h)

theorem goQuestions_missG_mono (sE dR : Bool) (ok : Nat → Bool) (ts rnd : Nat → String)
    (tC : List (String × Topic)) (gC : List (String × Tag)) :
    ∀ (rs : List QuestionRecord) (i : Nat) (codes missT missG : List String) {x : String},
      x ∈ missG →
      x ∈ (goQuestions sE dR ok ts rnd tC gC i codes missT missG rs).missingTags := by
  intro rs
  induction rs with
  | nil => intro i codes missT missG x h; simpa [goQuestions] using h
  | cons q rest ih =>
    intro i codes missT missG x h
    simp only [goQuestions]
    exact ih _ _ _ _ (processQuestion_missG_mono sE dR (ok i) (ts i) (rnd i)
      tC gC i codes missT missG q h)

/-! ### Step lemmas for `processQuestion` -/

theorem processQuestion_invalid {q : QuestionRecord}
    (h : contentTruthy q.question = false ∨ validAnswers q.answers = false ∨
      validCorrect q.correctAnswer = false)
    (sE dR ok' : Bool) (t rn : String) (tC : List (String × Topic))
    (gC : List (String × Tag)) (i : Nat) (codes missT missG : List String) :
    processQuestion sE dR ok' t rn tC gC i codes missT missG q =
      ⟨.failedO, none, codes, missT, missG⟩ := by
  rcases h with h | h | h <;> simp [processQuestion, h]

theorem processQuestion_skip {sE : Bool} {codes : List String} {q : QuestionRecord}
    (h1 : contentTruthy q.question = true) (h2 : validAnswers q.answers = true)
    (h3 : validCorrect q.correctAnswer = true)
    (hg : (sE && strTruthy q.code && checkExistingQuestion codes q.code) = true)
    (dR ok' : Bool) (t rn : String) (tC : List (String × Topic))
    (gC : List (String × Tag)) (i : Nat) (missT missG : List String) :
    processQuestion sE dR ok' t rn tC gC i codes missT missG q =
      ⟨.skippedO, none, codes, missT, missG⟩ := by
  simp [processQuestion, h1, h2, h3, hg]

theorem processQuestion_noskip_dry {sE : Bool} {codes : List String} {q : QuestionRecord}
    (h1 : contentTruthy q.question = true) (h2 : validAnswers q.answers = true)
    (h3 : validCorrect q.correctAnswer = true)
    (hg : (sE && strTruthy q.code && checkExistingQuestion codes q.code) = false)
    (ok' : Bool) (t rn : String) (tC : List (String × Topic))
    (gC : List (String × Tag)) (i : Nat) (missT missG : List String) :
    processQuestion sE true ok' t rn tC gC i codes missT missG q =
      ⟨.createdO, none, codes, (resolveTopic tC q.topic missT).2,
       (resolveTags gC q.tags missG).2⟩ := by
  simp [processQuestion, h1, h2, h3, hg]

theorem processQuestion_noskip_real {sE : Bool} {codes : List String} {q : QuestionRecord}
    (h1 : contentTruthy q.question = true) (h2 : validAnswers q.answers = true)
    (h3 : validCorrect q.correctAnswer = true)
    (hg : (sE && strTruthy q.code && checkExistingQuestion codes q.code) = false)
    (t rn : String) (tC : List (String × Topic))
    (gC : List (String × Tag)) (i : Nat) (missT missG : List String) :
    processQuestion sE false true t rn tC gC i codes missT missG q =
      ⟨.createdO,
       some (prepareEntry (if strTruthy q.code then q.code.getD "" else generateCode t rn i)
         q (resolveTopic tC q.topic missT).1 (resolveTags gC q.tags missG).1),
       codes ++ [if strTruthy q.code then q.code.getD "" else generateCode t rn i],
       (resolveTopic tC q.topic missT).2, (resolveTags gC q.tags missG).2⟩ := by
  simp [processQuestion, h1, h2, h3, hg, prepareEntry]

/-! ### Dry runs submit nothing -/

theorem goTopics_dry_trace (sE : Bool) (ok : Nat → Bool) :
    ∀ (rs : List TopicRecord) (i : Nat) (store : List String),
      (goTopics sE true ok i store rs).2 = [] := by
  intro rs
  induction rs with
  | nil => intro i store; rfl
  | cons r rest ih =>
    intro i store
    simp only [goTopics]
    repeat' split
    all_goals simp_all [ih]

theorem goTags_dry_trace (sE : Bool) (ok : Nat → Bool) :
    ∀ (rs : List TagRecord) (i : Nat) (store : List TagRow),
      (goTags sE true ok i store rs).2 = [] := by
  intro rs
  induction rs with
  | nil => intro i store; rfl
  | cons r rest ih =>
    intro i store
    simp only [goTags]
    repeat' split
    all_goals simp_all [ih]

theorem processQuestion_dry_submitted (sE ok' : Bool) (t rn : String)
    (tC : List (String × Topic)) (gC : List (String × Tag)) (i : Nat)
    (codes missT missG : List String) (q : QuestionRecord) :
    (processQuestion sE true ok' t rn tC gC i codes missT missG q).submitted = none := by
  unfold processQuestion
  repeat' split
  all_goals simp_all

theorem goQuestions_dry_trace (sE : Bool) (ok : Nat → Bool) (ts rnd : Nat → String)
    (tC : List (String × Topic)) (gC : List (String × Tag)) :
    ∀ (rs : List QuestionRecord) (i : Nat) (codes missT missG : List String),
      (goQuestions sE true ok ts rnd tC gC i codes missT missG rs).trace = [] := by
  intro rs
  induction rs with
  | nil => intro i codes missT missG; rfl
  | cons q rest ih =>
    intro i codes missT missG
    simp only [goQuestions]
    rw [processQuestion_dry_submitted]
    simp [ih]

/-! ### A dry run counts exactly the would-be creates -/

theorem mem_suppliedCodes_tail {c : String} {rest : List QuestionRecord} {q : QuestionRecord}
    (h : c ∈ suppliedCodes rest) : c ∈ suppliedCodes (q :: rest) := by
  simp only [suppliedCodes, List.filterMap_cons]
  split
  · exact h
  · exact List.mem_cons_of_mem _ h

theorem head_mem_suppliedCodes {q : QuestionRecord} (rest : List QuestionRecord)
    (h : strTruthy q.code = true) : q.code.getD "" ∈ suppliedCodes (q :: rest) := by
  simp [suppliedCodes, List.filterMap_cons, h]

theorem checkExistingQuestion_append {codes extra : List String} {q : Option String}
    (h : ∀ c ∈ extra, q ≠ some c) :
    checkExistingQuestion (codes ++ extra) q = checkExistingQuestion codes q := by
  cases q with
  | none => rfl
  | some c =>
    simp only [checkExistingQuestion]
    by_cases hc : c = ""
    · simp [hc]
    · have hextra : extra.filter (fun m => decide (m = c)) = [] := by
        refine List.filter_eq_nil_iff.2 (fun a ha => ?_)
        simp only [decide_eq_true_eq]
        exact fun heq => (h a ha) (by rw [heq])
      simp only [hc, if_false, List.filter_append, hextra, List.append_nil]

/-- With all creates succeeding and no later record supplying the key of
an earlier record ("fresh codes"), a dry run and a real run from the same
initial store report the same created count; `extra` is the store growth
the real run has already accumulated. -/
theorem goQuestions_dry_created (sE : Bool) (ts rnd : Nat → String)
    (tC : List (String × Topic)) (gC : List (String × Tag)) :
    ∀ (rs : List QuestionRecord) (i : Nat) (codes extra mT1 mG1 mT2 mG2 : List String),
      freshCodes ts rnd i rs = true →
      (∀ c ∈ suppliedCodes rs, c ∉ extra) →
      (goQuestions sE false (fun _ => true) ts rnd tC gC i (codes ++ extra) mT1 mG1
        rs).result.created =
      (goQuestions sE true (fun _ => true) ts rnd tC gC i codes mT2 mG2 rs).result.created := by
  intro rs
  induction rs with
  | nil => intros; rfl
  | cons q rest ih =>
    intro i codes extra mT1 mG1 mT2 mG2 hf hsup
    simp only [freshCodes, Bool.and_eq_true, Bool.not_eq_true'] at hf
    obtain ⟨hf1, hf2⟩ := hf
    have hfresh : codeUsed ts rnd i q ∉ suppliedCodes rest := by
      simpa using hf1
    have hsup' : ∀ c ∈ suppliedCodes rest, c ∉ extra :=
      fun c hc => hsup c (mem_suppliedCodes_tail hc)
    by_cases hval : contentTruthy q.question = true ∧ validAnswers q.answers = true ∧
      validCorrect q.correctAnswer = true
    case neg =>
      have hd : contentTruthy q.question = false ∨ validAnswers q.answers = false ∨
          validCorrect q.correctAnswer = false := by
        simpa only [not_and_or, Bool.not_eq_true] using hval
      simp only [goQuestions,
        processQuestion_invalid hd sE false true (ts i) (rnd i) tC gC i (codes ++ extra) mT1 mG1,
        processQuestion_invalid hd sE true true (ts i) (rnd i) tC gC i codes mT2 mG2, bump]
      exact ih (i + 1) codes extra mT1 mG1 mT2 mG2 hf2 hsup'
    case pos =>
      obtain ⟨h1, h2, h3⟩ := hval
      have hguard : (sE && strTruthy q.code && checkExistingQuestion (codes ++ extra) q.code) =
          (sE && strTruthy q.code && checkExistingQuestion codes q.code) := by
        by_cases hcode : strTruthy q.code = true
        · have hne : ∀ c ∈ extra, q.code ≠ some c := by
            intro c hc heq
            have hcd : q.code.getD "" = c := by rw [heq]; rfl
            exact hsup _ (head_mem_suppliedCodes rest hcode) (hcd ▸ hc)
          rw [checkExistingQuestion_append hne]
        · have hcode' : strTruthy q.code = false := by simpa using hcode
          simp [hcode']
      by_cases hskip : (sE && strTruthy q.code && checkExistingQuestion codes q.code) = true
      · have hskipR : (sE && strTruthy q.code &&
            checkExistingQuestion (codes ++ extra) q.code) = true := hguard.trans hskip
        simp only [goQuestions,
          processQuestion_skip h1 h2 h3 hskipR false true (ts i) (rnd i) tC gC i mT1 mG1,
          processQuestion_skip h1 h2 h3 hskip true true (ts i) (rnd i) tC gC i mT2 mG2, bump]
        exact ih (i + 1) codes extra mT1 mG1 mT2 mG2 hf2 hsup'
      · have hskipD : (sE && strTruthy q.code &&
            checkExistingQuestion codes q.code) = false := by simpa using hskip
        have hskipR : (sE && strTruthy q.code &&
            checkExistingQuestion (codes ++ extra) q.code) = false := hguard.trans hskipD
        have hcu : (if strTruthy q.code then q.code.getD ""
            else generateCode (ts i) (rnd i) i) = codeUsed ts rnd i q := rfl
        simp only [goQuestions,
          processQuestion_noskip_real h1 h2 h3 hskipR (ts i) (rnd i) tC gC i mT1 mG1,
          processQuestion_noskip_dry h1 h2 h3 hskipD true (ts i) (rnd i) tC gC i mT2 mG2,
          bump, hcu]
        rw [List.append_assoc]
        have hsup2 : ∀ c ∈ suppliedCodes rest, c ∉ extra ++ [codeUsed ts rnd i q] := by
          intro c hc
          simp only [List.mem_append, List.mem_singleton]
          push_neg
          exact ⟨hsup' c hc, fun he => hfresh (he ▸ hc)⟩
        have := ih (i + 1) codes (extra ++ [codeUsed ts rnd i q])
          (resolveTopic tC q.topic mT1).2 (resolveTags gC q.tags mG1).2
          (resolveTopic tC q.topic mT2).2 (resolveTags gC q.tags mG2).2 hf2 hsup2
        omega

theorem mem_tagNamesOf_tail {c : String} {rest : List TagRecord} {r : TagRecord}
    (h : c ∈ tagNamesOf rest) : c ∈ tagNamesOf (r :: rest) := by
  simp only [tagNamesOf, List.filterMap_cons]
  split
  · exact h
  · exact List.mem_cons_of_mem _ h

theorem mem_tagSlugsOf_tail {c : String} {rest : List TagRecord} {r : TagRecord}
    (h : c ∈ tagSlugsOf rest) : c ∈ tagSlugsOf (r :: rest) := by
  simp only [tagSlugsOf, List.filterMap_cons]
  split
  · exact h
  · exact List.mem_cons_of_mem _ h

theorem checkExistingTag_append {store extra : List TagRow} {n s : String}
    (hn : ∀ row ∈ extra, row.name ≠ n) (hs : ∀ row ∈ extra, row.slug ≠ s) :
    checkExistingTag (store ++ extra) n s = checkExistingTag store n s := by
  have h1 : extra.filter (fun t => decide (t.name = n)) = [] := by
    refine List.filter_eq_nil_iff.2 (fun a ha => ?_)
    simpa using hn a ha
  have h2 : extra.filter (fun t => decide (t.slug = s)) = [] := by
    refine List.filter_eq_nil_iff.2 (fun a ha => ?_)
    simpa using hs a ha
  simp only [checkExistingTag, List.filter_append, h1, h2, List.append_nil]

/-- The tags analogue of `goQuestions_dry_created`: with all creates
succeeding and no later record reusing an earlier record's name or slug,
a dry run and a real run report the same created count. -/
theorem goTags_dry_created (sE : Bool) :
    ∀ (rs : List TagRecord) (i : Nat) (store extra : List TagRow),
      freshTagKeys rs = true →
      (∀ c ∈ tagNamesOf rs, ∀ row ∈ extra, row.name ≠ c) →
      (∀ c ∈ tagSlugsOf rs, ∀ row ∈ extra, row.slug ≠ c) →
      (goTags sE false (fun _ => true) i (store ++ extra) rs).1.created =
        (goTags sE true (fun _ => true) i store rs).1.created := by
  intro rs
  induction rs with
  | nil => intros; rfl
  | cons r rest ih =>
    intro i store extra hf hn hs
    simp only [freshTagKeys, Bool.and_eq_true, Bool.not_eq_true'] at hf
    obtain ⟨⟨hf1, hf2⟩, hf3⟩ := hf
    have hfreshN : r.name.getD "" ∉ tagNamesOf rest := by simpa using hf1
    have hfreshS : slugUsed r ∉ tagSlugsOf rest := by simpa using hf2
    have hn' : ∀ c ∈ tagNamesOf rest, ∀ row ∈ extra, row.name ≠ c :=
      fun c hc => hn c (mem_tagNamesOf_tail hc)
    have hs' : ∀ c ∈ tagSlugsOf rest, ∀ row ∈ extra, row.slug ≠ c :=
      fun c hc => hs c (mem_tagSlugsOf_tail hc)
    by_cases hname : strTruthy r.name = true
    · have hnmem : r.name.getD "" ∈ tagNamesOf (r :: rest) := by
        simp [tagNamesOf, List.filterMap_cons, hname]
      have hsmem : slugUsed r ∈ tagSlugsOf (r :: rest) := by
        simp [tagSlugsOf, List.filterMap_cons, hname]
      have hguard : checkExistingTag (store ++ extra) (r.name.getD "") (slugUsed r) =
          checkExistingTag store (r.name.getD "") (slugUsed r) :=
        checkExistingTag_append (fun row hrow => hn _ hnmem row hrow)
          (fun row hrow => hs _ hsmem row hrow)
      by_cases hcheck : (sE && checkExistingTag store (r.name.getD "") (slugUsed r)) = true
      · have hcheckR : (sE && checkExistingTag (store ++ extra) (r.name.getD "")
            (slugUsed r)) = true := by rw [hguard]; exact hcheck
        simp only [goTags, hname, Bool.not_true, Bool.false_eq_true, if_false,
          hcheck, hcheckR, if_true]
        exact ih (i + 1) store extra hf3 hn' hs'
      · have hcheckD : (sE && checkExistingTag store (r.name.getD "") (slugUsed r)) = false := by
          simpa using hcheck
        have hcheckR : (sE && checkExistingTag (store ++ extra) (r.name.getD "")
            (slugUsed r)) = false := by rw [hguard]; exact hcheckD
        simp only [goTags, hname, Bool.not_true, Bool.false_eq_true, if_false,
          hcheckD, hcheckR, if_true]
        rw [List.append_assoc]
        have hn2 : ∀ c ∈ tagNamesOf rest,
            ∀ row ∈ extra ++ [{ name := r.name.getD "", slug := slugUsed r }],
              row.name ≠ c := by
          intro c hc row hrow
          rcases List.mem_append.1 hrow with hrow | hrow
          · exact hn' c hc row hrow
          · rcases List.mem_singleton.1 hrow with rfl
            intro he
            have he' : r.name.getD "" = c := he
            exact hfreshN (he'.symm ▸ hc)
        have hs2 : ∀ c ∈ tagSlugsOf rest,
            ∀ row ∈ extra ++ [{ name := r.name.getD "", slug := slugUsed r }],
              row.slug ≠ c := by
          intro c hc row hrow
          rcases List.mem_append.1 hrow with hrow | hrow
          · exact hs' c hc row hrow
          · rcases List.mem_singleton.1 hrow with rfl
            intro he
            have he' : slugUsed r = c := he
            exact hfreshS (he'.symm ▸ hc)
        have := ih (i + 1) store
          (extra ++ [{ name := r.name.getD "", slug := slugUsed r }]) hf3 hn2 hs2
        omega
    · have hname' : strTruthy r.name = false := by simpa using hname
      simp only [goTags, hname', Bool.not_false, if_true]
      exact ih (i + 1) store extra hf3 hn' hs'

end CloudExamBE

namespace CloudExamBE

/-- C4: the tag existence check is a disjunction: it reports `true` exactly
when the store holds a tag with the queried name or a tag with the queried
slug; a match on either field alone suffices. -/
theorem checkExistingTag_or (store : List TagRow) (n s : String) :
    checkExistingTag store n s = true ↔
      (∃ t ∈ store, t.name = n) ∨ (∃ t ∈ store, t.slug = s) := by
  simp [checkExistingTag, List.length_pos, ne_eq, List.filter_eq_nil_iff]

/-- C10: for every parsed (array) input, each record increments exactly one
counter, so `created + skipped + failed` equals the input length, for all
three scripts, all option combinations and all store responses. -/
theorem importResult_counts_partition (skipExisting dryRun : Bool) (createOk : Nat → Bool)
    (ts rnd : Nat → String) :
    (∀ (rs : List TopicRecord) (store : List String),
      (importQuestionTopics (.parsed rs) skipExisting dryRun createOk store).result.created +
        (importQuestionTopics (.parsed rs) skipExisting dryRun createOk store).result.skipped +
        (importQuestionTopics (.parsed rs) skipExisting dryRun createOk store).result.failed =
        rs.length) ∧
    (∀ (rs : List TagRecord) (store : List TagRow),
      (importQuestionTags (.parsed rs) skipExisting dryRun createOk store).result.created +
        (importQuestionTags (.parsed rs) skipExisting dryRun createOk store).result.skipped +
        (importQuestionTags (.parsed rs) skipExisting dryRun createOk store).result.failed =
        rs.length) ∧
    (∀ (rs : List QuestionRecord) (store : QuestionStore),
      (importQuestions (.parsed rs) skipExisting dryRun createOk ts rnd store).result.created +
        (importQuestions (.parsed rs) skipExisting dryRun createOk ts rnd store).result.skipped +
        (importQuestions (.parsed rs) skipExisting dryRun createOk ts rnd store).result.failed =
        rs.length) := by
  refine ⟨fun rs store => ?_, fun rs store => ?_, fun rs store => ?_⟩
  · simpa [importQuestionTopics] using goTopics_sum skipExisting dryRun createOk rs 0 store
  · simpa [importQuestionTags] using goTags_sum skipExisting dryRun createOk rs 0 store
  · simpa [importQuestions] using
      goQuestions_sum skipExisting dryRun createOk ts rnd
        (loadTopicsCache store.topics) (loadTagsCache store.tags) rs 0 store.codes [] []

/-- C5: a missing input file, unparseable JSON, or a non-array top level
each abort the run immediately: zero counters, no create requests, no
records processed, and a diagnostic; every parsed (array) input instead
processes all its records (the counters add up to the input length) with
no diagnostic — so no other condition aborts a run. -/
theorem fatal_inputs_abort (skipExisting dryRun : Bool) (createOk : Nat → Bool)
    (ts rnd : Nat → String) :
    (∀ (store : List String),
      importQuestionTopics .missing skipExisting dryRun createOk store =
        ⟨zeroResult, [], some "Data file not found"⟩ ∧
      importQuestionTopics .unparseable skipExisting dryRun createOk store =
        ⟨zeroResult, [], some "Failed to parse JSON file"⟩ ∧
      importQuestionTopics .notAnArray skipExisting dryRun createOk store =
        ⟨zeroResult, [], some "JSON file must contain an array of question topics"⟩ ∧
      ∀ (rs : List TopicRecord),
        (importQuestionTopics (.parsed rs) skipExisting dryRun createOk store).diag = none ∧
        (importQuestionTopics (.parsed rs) skipExisting dryRun createOk store).result.created +
          (importQuestionTopics (.parsed rs) skipExisting dryRun createOk store).result.skipped +
          (importQuestionTopics (.parsed rs) skipExisting dryRun createOk store).result.failed =
          rs.length) ∧
    (∀ (store : List TagRow),
      importQuestionTags .missing skipExisting dryRun createOk store =
        ⟨zeroResult, [], some "Data file not found"⟩ ∧
      importQuestionTags .unparseable skipExisting dryRun createOk store =
        ⟨zeroResult, [], some "Failed to parse JSON file"⟩ ∧
      importQuestionTags .notAnArray skipExisting dryRun createOk store =
        ⟨zeroResult, [], some "JSON file must contain an array of question tags"⟩ ∧
      ∀ (rs : List TagRecord),
        (importQuestionTags (.parsed rs) skipExisting dryRun createOk store).diag = none ∧
        (importQuestionTags (.parsed rs) skipExisting dryRun createOk store).result.created +
          (importQuestionTags (.parsed rs) skipExisting dryRun createOk store).result.skipped +
          (importQuestionTags (.parsed rs) skipExisting dryRun createOk store).result.failed =
          rs.length) ∧
    (∀ (store : QuestionStore),
      importQuestions .missing skipExisting dryRun createOk ts rnd store =
        ⟨zeroResult, [], [], [], some "Data file not found"⟩ ∧
      importQuestions .unparseable skipExisting dryRun createOk ts rnd store =
        ⟨zeroResult, [], [], [], some "Failed to parse JSON file"⟩ ∧
      importQuestions .notAnArray skipExisting dryRun createOk ts rnd store =
        ⟨zeroResult, [], [], [], some "JSON file must contain an array of questions"⟩ ∧
      ∀ (rs : List QuestionRecord),
        (importQuestions (.parsed rs) skipExisting dryRun createOk ts rnd store).diag = none ∧
        (importQuestions (.parsed rs) skipExisting dryRun createOk ts rnd store).result.created +
          (importQuestions (.parsed rs) skipExisting dryRun createOk ts rnd store).result.skipped +
          (importQuestions (.parsed rs) skipExisting dryRun createOk ts rnd store).result.failed =
          rs.length) := by
  refine ⟨fun store => ⟨rfl, rfl, rfl, fun rs => ⟨rfl, ?_⟩⟩,
          fun store => ⟨rfl, rfl, rfl, fun rs => ⟨rfl, ?_⟩⟩,
          fun store => ⟨rfl, rfl, rfl, fun rs => ⟨rfl, ?_⟩⟩⟩
  · simpa [importQuestionTopics] using goTopics_sum skipExisting dryRun createOk rs 0 store
  · simpa [importQuestionTags] using goTags_sum skipExisting dryRun createOk rs 0 store
  · simpa [importQuestions] using
      goQuestions_sum skipExisting dryRun createOk ts rnd
        (loadTopicsCache store.topics) (loadTagsCache store.tags) rs 0 store.codes [] []

/-- C3: with `skipExisting = true`, a record whose natural key the store
reports as existing (name for topics; name-or-slug for tags; code for
questions) increments the skipped counter by exactly one, submits no
create request, and leaves the rest of the run unchanged; and a question
record that supplied no truthy code is never skipped (the check is only
performed when a code was supplied). -/
theorem skipExisting_match_skips :
    (∀ (dR : Bool) (ok : Nat → Bool) (i : Nat) (store : List String)
        (r : TopicRecord) (rest : List TopicRecord),
      strTruthy r.name = true →
      checkExistingTopic store (r.name.getD "") = true →
      (goTopics true dR ok i store (r :: rest)).1.skipped =
        (goTopics true dR ok (i + 1) store rest).1.skipped + 1 ∧
      (goTopics true dR ok i store (r :: rest)).1.created =
        (goTopics true dR ok (i + 1) store rest).1.created ∧
      (goTopics true dR ok i store (r :: rest)).1.failed =
        (goTopics true dR ok (i + 1) store rest).1.failed ∧
      (goTopics true dR ok i store (r :: rest)).2 =
        (goTopics true dR ok (i + 1) store rest).2) ∧
    (∀ (dR : Bool) (ok : Nat → Bool) (i : Nat) (store : List TagRow)
        (r : TagRecord) (rest : List TagRecord),
      strTruthy r.name = true →
      checkExistingTag store (r.name.getD "") (slugUsed r) = true →
      (goTags true dR ok i store (r :: rest)).1.skipped =
        (goTags true dR ok (i + 1) store rest).1.skipped + 1 ∧
      (goTags true dR ok i store (r :: rest)).1.created =
        (goTags true dR ok (i + 1) store rest).1.created ∧
      (goTags true dR ok i store (r :: rest)).1.failed =
        (goTags true dR ok (i + 1) store rest).1.failed ∧
      (goTags true dR ok i store (r :: rest)).2 =
        (goTags true dR ok (i + 1) store rest).2) ∧
    (∀ (dR : Bool) (ok : Nat → Bool) (ts rnd : Nat → String)
        (tC : List (String × Topic)) (gC : List (String × Tag))
        (i : Nat) (codes missT missG : List String)
        (q : QuestionRecord) (rest : List QuestionRecord),
      contentTruthy q.question = true →
      validAnswers q.answers = true →
      validCorrect q.correctAnswer = true →
      strTruthy q.code = true →
      checkExistingQuestion codes q.code = true →
      processQuestion true dR (ok i) (ts i) (rnd i) tC gC i codes missT missG q =
        ⟨.skippedO, none, codes, missT, missG⟩ ∧
      (goQuestions true dR ok ts rnd tC gC i codes missT missG (q :: rest)).result.skipped =
        (goQuestions true dR ok ts rnd tC gC (i + 1) codes missT missG rest).result.skipped + 1 ∧
      (goQuestions true dR ok ts rnd tC gC i codes missT missG (q :: rest)).result.created =
        (goQuestions true dR ok ts rnd tC gC (i + 1) codes missT missG rest).result.created ∧
      (goQuestions true dR ok ts rnd tC gC i codes missT missG (q :: rest)).result.failed =
        (goQuestions true dR ok ts rnd tC gC (i + 1) codes missT missG rest).result.failed ∧
      (goQuestions true dR ok ts rnd tC gC i codes missT missG (q :: rest)).trace =
        (goQuestions true dR ok ts rnd tC gC (i + 1) codes missT missG rest).trace) ∧
    (∀ (sE dR ok' : Bool) (t rn : String) (tC : List (String × Topic))
        (gC : List (String × Tag)) (i : Nat) (codes missT missG : List String)
        (q : QuestionRecord),
      strTruthy q.code = false →
      (processQuestion sE dR ok' t rn tC gC i codes missT missG q).outcome ≠ .skippedO) := by
  refine ⟨?_, ?_, ?_, ?_⟩
  · intro dR ok i store r rest h1 h2
    simp [goTopics, h1, h2]
  · intro dR ok i store r rest h1 h2
    simp [goTags, h1, h2]
  · intro dR ok ts rnd tC gC i codes missT missG q rest h1 h2 h3 h4 h5
    have hs : processQuestion true dR (ok i) (ts i) (rnd i) tC gC i codes missT missG q =
        ⟨.skippedO, none, codes, missT, missG⟩ := by
      simp [processQuestion, h1, h2, h3, h4, h5]
    refine ⟨hs, ?_, ?_, ?_, ?_⟩ <;>
      simp [goQuestions, hs, bump, Option.toList]
  · intro sE dR ok' t rn tC gC i codes missT missG q h
    simp only [processQuestion, h, Bool.and_false, Bool.false_and]
    repeat' split
    all_goals simp_all

/-- C3 witness: concrete skips in all three scripts, plus a concrete
codeless question record that is not skipped. -/
theorem skipExisting_match_skips_witness :
    ((goTopics true false (fun _ => true) 0 ["Math"]
        [{ name := some "Math", description := Content.nullC }]).1.skipped =
      (goTopics true false (fun _ => true) 1 ["Math"] []).1.skipped + 1 ∧
     (goTopics true false (fun _ => true) 0 ["Math"]
        [{ name := some "Math", description := Content.nullC }]).1.created =
      (goTopics true false (fun _ => true) 1 ["Math"] []).1.created ∧
     (goTopics true false (fun _ => true) 0 ["Math"]
        [{ name := some "Math", description := Content.nullC }]).1.failed =
      (goTopics true false (fun _ => true) 1 ["Math"] []).1.failed ∧
     (goTopics true false (fun _ => true) 0 ["Math"]
        [{ name := some "Math", description := Content.nullC }]).2 =
      (goTopics true false (fun _ => true) 1 ["Math"] []).2) ∧
    (processQuestion true false true "t" "r" [] [] 0 ["Q1"] [] []
        { code := some "Q1", question := Content.strC "What?", type := none,
          answers := some [{ id := "A", content := "x" }], correctAnswer := some ["A"],
          explanation := Content.nullC, difficulty := none, source := none,
          version := none, topic := none, tags := none } =
      ⟨.skippedO, none, ["Q1"], [], []⟩) ∧
    ((processQuestion true false true "t" "r" [] [] 0 [] [] []
        { code := none, question := Content.strC "What?", type := none,
          answers := some [{ id := "A", content := "x" }], correctAnswer := some ["A"],
          explanation := Content.nullC, difficulty := none, source := none,
          version := none, topic := none, tags := none }).outcome ≠ .skippedO) :=
  ⟨skipExisting_match_skips.1 false (fun _ => true) 0 ["Math"]
      { name := some "Math", description := Content.nullC } [] (by decide) (by decide),
   (skipExisting_match_skips.2.2.1 false (fun _ => true) (fun _ => "t") (fun _ => "r")
      [] [] 0 ["Q1"] [] []
      { code := some "Q1", question := Content.strC "What?", type := none,
        answers := some [{ id := "A", content := "x" }], correctAnswer := some ["A"],
        explanation := Content.nullC, difficulty := none, source := none,
        version := none, topic := none, tags := none } []
      (by decide) (by decide) (by decide) (by decide) (by decide)).1,
   skipExisting_match_skips.2.2.2 true false true "t" "r" [] [] 0 [] [] []
      { code := none, question := Content.strC "What?", type := none,
        answers := some [{ id := "A", content := "x" }], correctAnswer := some ["A"],
        explanation := Content.nullC, difficulty := none, source := none,
        version := none, topic := none, tags := none } (by decide)⟩

/-- C6: a record missing a required field (truthy name for topics and
tags; truthy question text, non-empty answers array, non-empty
correctAnswer array for questions) increments the failed counter by
exactly one, submits no create request, and processing continues with the
remaining records unchanged. -/
theorem missing_required_field_fails :
    (∀ (sE dR : Bool) (ok : Nat → Bool) (i : Nat) (store : List String)
        (r : TopicRecord) (rest : List TopicRecord),
      strTruthy r.name = false →
      (goTopics sE dR ok i store (r :: rest)).1.failed =
        (goTopics sE dR ok (i + 1) store rest).1.failed + 1 ∧
      (goTopics sE dR ok i store (r :: rest)).1.created =
        (goTopics sE dR ok (i + 1) store rest).1.created ∧
      (goTopics sE dR ok i store (r :: rest)).1.skipped =
        (goTopics sE dR ok (i + 1) store rest).1.skipped ∧
      (goTopics sE dR ok i store (r :: rest)).2 =
        (goTopics sE dR ok (i + 1) store rest).2) ∧
    (∀ (sE dR : Bool) (ok : Nat → Bool) (i : Nat) (store : List TagRow)
        (r : TagRecord) (rest : List TagRecord),
      strTruthy r.name = false →
      (goTags sE dR ok i store (r :: rest)).1.failed =
        (goTags sE dR ok (i + 1) store rest).1.failed + 1 ∧
      (goTags sE dR ok i store (r :: rest)).1.created =
        (goTags sE dR ok (i + 1) store rest).1.created ∧
      (goTags sE dR ok i store (r :: rest)).1.skipped =
        (goTags sE dR ok (i + 1) store rest).1.skipped ∧
      (goTags sE dR ok i store (r :: rest)).2 =
        (goTags sE dR ok (i + 1) store rest).2) ∧
    (∀ (sE dR : Bool) (ok : Nat → Bool) (ts rnd : Nat → String)
        (tC : List (String × Topic)) (gC : List (String × Tag))
        (i : Nat) (codes missT missG : List String)
        (q : QuestionRecord) (rest : List QuestionRecord),
      (contentTruthy q.question = false ∨ validAnswers q.answers = false ∨
        validCorrect q.correctAnswer = false) →
      processQuestion sE dR (ok i) (ts i) (rnd i) tC gC i codes missT missG q =
        ⟨.failedO, none, codes, missT, missG⟩ ∧
      (goQuestions sE dR ok ts rnd tC gC i codes missT missG (q :: rest)).result.failed =
        (goQuestions sE dR ok ts rnd tC gC (i + 1) codes missT missG rest).result.failed + 1 ∧
      (goQuestions sE dR ok ts rnd tC gC i codes missT missG (q :: rest)).result.created =
        (goQuestions sE dR ok ts rnd tC gC (i + 1) codes missT missG rest).result.created ∧
      (goQuestions sE dR ok ts rnd tC gC i codes missT missG (q :: rest)).result.skipped =
        (goQuestions sE dR ok ts rnd tC gC (i + 1) codes missT missG rest).result.skipped ∧
      (goQuestions sE dR ok ts rnd tC gC i codes missT missG (q :: rest)).trace =
        (goQuestions sE dR ok ts rnd tC gC (i + 1) codes missT missG rest).trace) := by
  refine ⟨?_, ?_, ?_⟩
  · intro sE dR ok i store r rest h
    simp [goTopics, h]
  · intro sE dR ok i store r rest h
    simp [goTags, h]
  · intro sE dR ok ts rnd tC gC i codes missT missG q rest h
    have hs : processQuestion sE dR (ok i) (ts i) (rnd i) tC gC i codes missT missG q =
        ⟨.failedO, none, codes, missT, missG⟩ := by
      rcases h with h | h | h <;> simp [processQuestion, h]
    refine ⟨hs, ?_, ?_, ?_, ?_⟩ <;>
      simp [goQuestions, hs, bump, Option.toList]

/-- C6 witness: a topic record without a name and a question record with
an empty answers array, both failing concretely. -/
theorem missing_required_field_fails_witness :
    ((goTopics true false (fun _ => true) 0 []
        [{ name := none, description := Content.strC "d" }]).1.failed =
      (goTopics true false (fun _ => true) 1 [] []).1.failed + 1 ∧
     (goTopics true false (fun _ => true) 0 []
        [{ name := none, description := Content.strC "d" }]).1.created =
      (goTopics true false (fun _ => true) 1 [] []).1.created ∧
     (goTopics true false (fun _ => true) 0 []
        [{ name := none, description := Content.strC "d" }]).1.skipped =
      (goTopics true false (fun _ => true) 1 [] []).1.skipped ∧
     (goTopics true false (fun _ => true) 0 []
        [{ name := none, description := Content.strC "d" }]).2 =
      (goTopics true false (fun _ => true) 1 [] []).2) ∧
    (processQuestion true false true "t" "r" [] [] 0 [] [] []
        { code := some "Q2", question := Content.strC "What?", type := none,
          answers := some [], correctAnswer := some ["A"],
          explanation := Content.nullC, difficulty := none, source := none,
          version := none, topic := none, tags := none } =
      ⟨.failedO, none, [], [], []⟩) :=
  ⟨missing_required_field_fails.1 true false (fun _ => true) 0 []
      { name := none, description := Content.strC "d" } [] (by decide),
   (missing_required_field_fails.2.2 true false (fun _ => true) (fun _ => "t") (fun _ => "r")
      [] [] 0 [] [] []
      { code := some "Q2", question := Content.strC "What?", type := none,
        answers := some [], correctAnswer := some ["A"],
        explanation := Content.nullC, difficulty := none, source := none,
        version := none, topic := none, tags := none } []
      (Or.inr (Or.inl (by decide)))).1⟩

/-- C8: the question import builds both caches from the whole store before
the record loop runs; cache entries are keyed by the entity's lowercased
name; resolution lowercases the queried name, so (when the store's
lowercased names are distinct, i.e. the cache holds all entities) a query
differing from an entity's name only in letter case resolves to that
entity. -/
theorem caches_case_insensitive :
    (∀ (store : QuestionStore) (sE dR : Bool) (ok : Nat → Bool)
        (ts rnd : Nat → String) (rs : List QuestionRecord),
      importQuestions (.parsed rs) sE dR ok ts rnd store =
        { result := (goQuestions sE dR ok ts rnd (loadTopicsCache store.topics)
            (loadTagsCache store.tags) 0 store.codes [] [] rs).result
          trace := (goQuestions sE dR ok ts rnd (loadTopicsCache store.topics)
            (loadTagsCache store.tags) 0 store.codes [] [] rs).trace
          missingTopics := (goQuestions sE dR ok ts rnd (loadTopicsCache store.topics)
            (loadTagsCache store.tags) 0 store.codes [] [] rs).missingTopics
          missingTags := (goQuestions sE dR ok ts rnd (loadTopicsCache store.topics)
            (loadTagsCache store.tags) 0 store.codes [] [] rs).missingTags
          diag := none }) ∧
    (∀ (topics : List Topic), ∀ p ∈ loadTopicsCache topics, p.1 = jsToLower p.2.name) ∧
    (∀ (tags : List Tag), ∀ p ∈ loadTagsCache tags, p.1 = jsToLower p.2.name) ∧
    (∀ (topics : List Topic) (n : String) (t : Topic),
      (topics.map (fun t => jsToLower t.name)).Nodup →
      t ∈ topics → jsToLower n = jsToLower t.name → n ≠ "" →
      findTopicByName (loadTopicsCache topics) n = some t) ∧
    (∀ (tags : List Tag) (n : String) (g : Tag),
      (tags.map (fun t => jsToLower t.name)).Nodup →
      g ∈ tags → jsToLower n = jsToLower g.name →
      findTagsByNames (loadTagsCache tags) [n] = [g]) := by
  refine ⟨fun store sE dR ok ts rnd rs => rfl, ?_, ?_, ?_, ?_⟩
  · intro topics p hp
    rcases List.mem_map.1 hp with ⟨t, _, rfl⟩
    rfl
  · intro tags p hp
    rcases List.mem_map.1 hp with ⟨t, _, rfl⟩
    rfl
  · intro topics n t hnd ht hcase hne
    have hkeys : (loadTopicsCache topics).map Prod.fst =
        topics.map (fun t => jsToLower t.name) := by
      simp [loadTopicsCache]
    have hmem : (jsToLower n, t) ∈ loadTopicsCache topics := by
      rw [hcase]
      exact List.mem_map_of_mem (fun t => (jsToLower t.name, t)) ht
    have := cacheLookup_of_nodup (hkeys ▸ hnd) hmem
    simp [findTopicByName, hne, this]
  · intro tags n g hnd hg hcase
    have hkeys : (loadTagsCache tags).map Prod.fst =
        tags.map (fun t => jsToLower t.name) := by
      simp [loadTagsCache]
    have hmem : (jsToLower n, g) ∈ loadTagsCache tags := by
      rw [hcase]
      exact List.mem_map_of_mem (fun t => (jsToLower t.name, t)) hg
    have := cacheLookup_of_nodup (hkeys ▸ hnd) hmem
    simp [findTagsByNames, this]

/-- C8 witness: `"GEOGRAPHY"` resolves to the cached topic named
`"Geography"`, and `"europe"` to the cached tag named `"Europe"`. -/
theorem caches_case_insensitive_witness :
    findTopicByName (loadTopicsCache [{ documentId := "d1", name := "Geography" }])
      "GEOGRAPHY" = some { documentId := "d1", name := "Geography" } ∧
    findTagsByNames (loadTagsCache [{ documentId := "d2", name := "Europe" }])
      ["europe"] = [{ documentId := "d2", name := "Europe" }] :=
  ⟨caches_case_insensitive.2.2.2.1 [{ documentId := "d1", name := "Geography" }]
      "GEOGRAPHY" { documentId := "d1", name := "Geography" }
      (by decide) (by decide) (by decide) (by decide),
   caches_case_insensitive.2.2.2.2 [{ documentId := "d2", name := "Europe" }]
      "europe" { documentId := "d2", name := "Europe" }
      (by decide) (by decide) (by decide)⟩

/-- C9: a question record that supplied no code is created with the
synthesized code `Q-<timestamp>-<random>-<index>`, and two codes
synthesized at distinct input indices are always distinct: the segment
after the final dash is the decimal index (timestamp and random suffix
are base-36 and contain no dash, but distinctness needs no such
assumption). -/
theorem synthesized_codes_distinct :
    (∀ (sE ok' : Bool) (t rn : String) (tC : List (String × Topic))
        (gC : List (String × Tag)) (i : Nat) (codes missT missG : List String)
        (q : QuestionRecord),
      strTruthy q.code = false →
      contentTruthy q.question = true →
      validAnswers q.answers = true →
      validCorrect q.correctAnswer = true →
      ((processQuestion sE false ok' t rn tC gC i codes missT missG q).submitted.map
        (fun e => e.code)) = some (generateCode t rn i)) ∧
    (∀ (ts rnd : Nat → String) (i j : Nat), i ≠ j →
      generateCode (ts i) (rnd i) i ≠ generateCode (ts j) (rnd j) j) := by
  constructor
  · intro sE ok' t rn tC gC i codes missT missG q h0 h1 h2 h3
    simp only [processQuestion, h0, h1, h2, h3, Bool.and_false, Bool.false_and,
      Bool.not_true, Bool.false_eq_true, if_false, if_neg]
    repeat' split
    all_goals simp_all [prepareEntry]
  · intro ts rnd i j hij h
    exact hij (generateCode_index_inj _ _ _ _ i j h)

/-- C9 witness: the synthesized code of a concrete codeless record at
index 5, and distinctness of the codes at indices 0 and 1. -/
theorem synthesized_codes_distinct_witness :
    ((processQuestion true false true "t0" "r0" [] [] 5 [] [] []
        { code := none, question := Content.strC "Q?", type := none,
          answers := some [{ id := "A", content := "x" }], correctAnswer := some ["A"],
          explanation := Content.nullC, difficulty := none, source := none,
          version := none, topic := none, tags := none }).submitted.map
      (fun e => e.code)) = some (generateCode "t0" "r0" 5) ∧
    generateCode "t0" "r0" 0 ≠ generateCode "t0" "r0" 1 :=
  ⟨synthesized_codes_distinct.1 true true "t0" "r0" [] [] 5 [] [] []
      { code := none, question := Content.strC "Q?", type := none,
        answers := some [{ id := "A", content := "x" }], correctAnswer := some ["A"],
        explanation := Content.nullC, difficulty := none, source := none,
        version := none, topic := none, tags := none }
      (by decide) (by decide) (by decide) (by decide),
   synthesized_codes_distinct.2 (fun _ => "t0") (fun _ => "r0") 0 1 (by decide)⟩

/-- C7: a valid, non-skipped question record with an unresolved reference
is still created (given the store accepts the create), and the failed
counter is unchanged.  First part: a record whose topic name is absent
from the topics cache gets a null topic link and the name joins the run's
missing-topics set (no assumption on its tags).  Second part: a record
one of whose tag names is absent from the tags cache is created with only
the resolved tags' ids — the unresolved tag is omitted — and the name
joins the run's missing-tags set (no assumption on its topic). -/
theorem unresolved_refs_nonfatal :
    (∀ (sE : Bool) (ok : Nat → Bool) (ts rnd : Nat → String)
        (tC : List (String × Topic)) (gC : List (String × Tag))
        (i : Nat) (codes missT missG : List String)
        (q : QuestionRecord) (rest : List QuestionRecord),
      contentTruthy q.question = true →
      validAnswers q.answers = true →
      validCorrect q.correctAnswer = true →
      (sE && strTruthy q.code && checkExistingQuestion codes q.code) = false →
      ok i = true →
      strTruthy q.topic = true →
      findTopicByName tC (q.topic.getD "") = none →
      processQuestion sE false (ok i) (ts i) (rnd i) tC gC i codes missT missG q =
        ⟨.createdO,
         some (prepareEntry (codeUsed ts rnd i q) q none (resolveTags gC q.tags missG).1),
         codes ++ [codeUsed ts rnd i q],
         setAdd missT (q.topic.getD ""),
         (resolveTags gC q.tags missG).2⟩ ∧
      (prepareEntry (codeUsed ts rnd i q) q none
        (resolveTags gC q.tags missG).1).question_topic = none ∧
      (goQuestions sE false ok ts rnd tC gC i codes missT missG (q :: rest)).result.created =
        (goQuestions sE false ok ts rnd tC gC (i + 1) (codes ++ [codeUsed ts rnd i q])
          (setAdd missT (q.topic.getD "")) (resolveTags gC q.tags missG).2
          rest).result.created + 1 ∧
      (goQuestions sE false ok ts rnd tC gC i codes missT missG (q :: rest)).result.failed =
        (goQuestions sE false ok ts rnd tC gC (i + 1) (codes ++ [codeUsed ts rnd i q])
          (setAdd missT (q.topic.getD "")) (resolveTags gC q.tags missG).2
          rest).result.failed ∧
      q.topic.getD "" ∈
        (goQuestions sE false ok ts rnd tC gC i codes missT missG
          (q :: rest)).missingTopics) ∧
    (∀ (sE : Bool) (ok : Nat → Bool) (ts rnd : Nat → String)
        (tC : List (String × Topic)) (gC : List (String × Tag))
        (i : Nat) (codes missT missG : List String)
        (q : QuestionRecord) (rest : List QuestionRecord) (names : List String)
        (m : String),
      contentTruthy q.question = true →
      validAnswers q.answers = true →
      validCorrect q.correctAnswer = true →
      (sE && strTruthy q.code && checkExistingQuestion codes q.code) = false →
      ok i = true →
      q.tags = some names →
      m ∈ names →
      cacheLookup gC (jsToLower m) = none →
      processQuestion sE false (ok i) (ts i) (rnd i) tC gC i codes missT missG q =
        ⟨.createdO,
         some (prepareEntry (codeUsed ts rnd i q) q (resolveTopic tC q.topic missT).1
           ((findTagsByNames gC names).map (fun t => t.documentId))),
         codes ++ [codeUsed ts rnd i q],
         (resolveTopic tC q.topic missT).2,
         addMissingTags gC missG names⟩ ∧
      (prepareEntry (codeUsed ts rnd i q) q (resolveTopic tC q.topic missT).1
        ((findTagsByNames gC names).map (fun t => t.documentId))).question_tags =
        (findTagsByNames gC names).map (fun t => t.documentId) ∧
      (goQuestions sE false ok ts rnd tC gC i codes missT missG (q :: rest)).result.created =
        (goQuestions sE false ok ts rnd tC gC (i + 1) (codes ++ [codeUsed ts rnd i q])
          (resolveTopic tC q.topic missT).2 (addMissingTags gC missG names)
          rest).result.created + 1 ∧
      (goQuestions sE false ok ts rnd tC gC i codes missT missG (q :: rest)).result.failed =
        (goQuestions sE false ok ts rnd tC gC (i + 1) (codes ++ [codeUsed ts rnd i q])
          (resolveTopic tC q.topic missT).2 (addMissingTags gC missG names)
          rest).result.failed ∧
      m ∈ (goQuestions sE false ok ts rnd tC gC i codes missT missG
        (q :: rest)).missingTags) := by
  constructor
  · intro sE ok ts rnd tC gC i codes missT missG q rest h1 h2 h3 hskip hok htop hmiss
    have hrt : resolveTopic tC q.topic missT = (none, setAdd missT (q.topic.getD "")) := by
      simp [resolveTopic, htop, hmiss]
    have hstep : processQuestion sE false (ok i) (ts i) (rnd i) tC gC i codes missT missG q =
        ⟨.createdO,
         some (prepareEntry (codeUsed ts rnd i q) q none (resolveTags gC q.tags missG).1),
         codes ++ [codeUsed ts rnd i q],
         setAdd missT (q.topic.getD ""),
         (resolveTags gC q.tags missG).2⟩ := by
      rw [hok, processQuestion_noskip_real h1 h2 h3 hskip (ts i) (rnd i) tC gC i missT missG,
        hrt]
      rfl
    refine ⟨hstep, rfl, ?_, ?_, ?_⟩
    · simp [goQuestions, hstep, bump]
    · simp [goQuestions, hstep, bump]
    · simp only [goQuestions, hstep]
      exact goQuestions_missT_mono sE false ok ts rnd tC gC rest (i + 1)
        (codes ++ [codeUsed ts rnd i q]) (setAdd missT (q.topic.getD ""))
        (resolveTags gC q.tags missG).2 (mem_setAdd_self missT (q.topic.getD ""))
  · intro sE ok ts rnd tC gC i codes missT missG q rest names m
      h1 h2 h3 hskip hok htags hm hmtag
    have hrg : resolveTags gC q.tags missG =
        ((findTagsByNames gC names).map (fun t => t.documentId),
         addMissingTags gC missG names) := by
      simp [resolveTags, htags]
    have hstep : processQuestion sE false (ok i) (ts i) (rnd i) tC gC i codes missT missG q =
        ⟨.createdO,
         some (prepareEntry (codeUsed ts rnd i q) q (resolveTopic tC q.topic missT).1
           ((findTagsByNames gC names).map (fun t => t.documentId))),
         codes ++ [codeUsed ts rnd i q],
         (resolveTopic tC q.topic missT).2,
         addMissingTags gC missG names⟩ := by
      rw [hok, processQuestion_noskip_real h1 h2 h3 hskip (ts i) (rnd i) tC gC i missT missG,
        hrg]
      rfl
    refine ⟨hstep, rfl, ?_, ?_, ?_⟩
    · simp [goQuestions, hstep, bump]
    · simp [goQuestions, hstep, bump]
    · simp only [goQuestions, hstep]
      exact goQuestions_missG_mono sE false ok ts rnd tC gC rest (i + 1)
        (codes ++ [codeUsed ts rnd i q]) (resolveTopic tC q.topic missT).2
        (addMissingTags gC missG names) (mem_addMissingTags_self gC hm hmtag)

/-- C7 witness: with empty caches, a record referencing only topic
`"Geography"` (no tags field) is created with a null topic link and
`"Geography"` reported missing; a record referencing only tag `"Europe"`
(no topic field) is created and `"Europe"` reported missing. -/
theorem unresolved_refs_nonfatal_witness :
    (prepareEntry
      (codeUsed (fun _ => "t0") (fun _ => "r0") 0
        { code := some "QT", question := Content.strC "Q?", type := none,
          answers := some [{ id := "A", content := "x" }], correctAnswer := some ["A"],
          explanation := Content.nullC, difficulty := none, source := none,
          version := none, topic := some "Geography", tags := none })
      { code := some "QT", question := Content.strC "Q?", type := none,
        answers := some [{ id := "A", content := "x" }], correctAnswer := some ["A"],
        explanation := Content.nullC, difficulty := none, source := none,
        version := none, topic := some "Geography", tags := none }
      none (resolveTags []
        ({ code := some "QT", question := Content.strC "Q?", type := none,
           answers := some [{ id := "A", content := "x" }], correctAnswer := some ["A"],
           explanation := Content.nullC, difficulty := none, source := none,
           version := none, topic := some "Geography",
           tags := none } : QuestionRecord).tags []).1).question_topic = none ∧
    "Geography" ∈
      (goQuestions false false (fun _ => true) (fun _ => "t0") (fun _ => "r0") [] []
        0 [] [] []
        [{ code := some "QT", question := Content.strC "Q?", type := none,
           answers := some [{ id := "A", content := "x" }], correctAnswer := some ["A"],
           explanation := Content.nullC, difficulty := none, source := none,
           version := none, topic := some "Geography",
           tags := none }]).missingTopics ∧
    (prepareEntry
      (codeUsed (fun _ => "t0") (fun _ => "r0") 0
        { code := some "QG", question := Content.strC "Q?", type := none,
          answers := some [{ id := "A", content := "x" }], correctAnswer := some ["A"],
          explanation := Content.nullC, difficulty := none, source := none,
          version := none, topic := none, tags := some ["Europe"] })
      { code := some "QG", question := Content.strC "Q?", type := none,
        answers := some [{ id := "A", content := "x" }], correctAnswer := some ["A"],
        explanation := Content.nullC, difficulty := none, source := none,
        version := none, topic := none, tags := some ["Europe"] }
      (resolveTopic []
        ({ code := some "QG", question := Content.strC "Q?", type := none,
           answers := some [{ id := "A", content := "x" }], correctAnswer := some ["A"],
           explanation := Content.nullC, difficulty := none, source := none,
           version := none, topic := none,
           tags := some ["Europe"] } : QuestionRecord).topic []).1
      ((findTagsByNames [] ["Europe"]).map (fun t => t.documentId))).question_tags =
      (findTagsByNames [] ["Europe"]).map (fun t => t.documentId) ∧
    "Europe" ∈
      (goQuestions false false (fun _ => true) (fun _ => "t0") (fun _ => "r0") [] []
        0 [] [] []
        [{ code := some "QG", question := Content.strC "Q?", type := none,
           answers := some [{ id := "A", content := "x" }], correctAnswer := some ["A"],
           explanation := Content.nullC, difficulty := none, source := none,
           version := none, topic := none,
           tags := some ["Europe"] }]).missingTags := by
  have hA := unresolved_refs_nonfatal.1 false (fun _ => true) (fun _ => "t0")
    (fun _ => "r0") [] [] 0 [] [] []
    { code := some "QT", question := Content.strC "Q?", type := none,
      answers := some [{ id := "A", content := "x" }], correctAnswer := some ["A"],
      explanation := Content.nullC, difficulty := none, source := none,
      version := none, topic := some "Geography", tags := none }
    [] (by decide) (by decide) (by decide) (by decide) (by decide) (by decide) (by decide)
  have hB := unresolved_refs_nonfatal.2 false (fun _ => true) (fun _ => "t0")
    (fun _ => "r0") [] [] 0 [] [] []
    { code := some "QG", question := Content.strC "Q?", type := none,
      answers := some [{ id := "A", content := "x" }], correctAnswer := some ["A"],
      explanation := Content.nullC, difficulty := none, source := none,
      version := none, topic := none, tags := some ["Europe"] }
    [] ["Europe"] "Europe"
    (by decide) (by decide) (by decide) (by decide) (by decide) (by decide)
    (by decide) (by decide)
  exact ⟨hA.2.1, hA.2.2.2.2, hB.2.1, hB.2.2.2.2⟩

/-- C2 counterexample: two question records supplying the same code
`"Q1"` against an empty store.  The dry run answers both existence checks
against the never-growing store and counts 2 records as created; the real
run creates the first record, which makes the second existence check
succeed, so it creates 1 and skips 1.  The dry-run created count therefore
does not equal the count of records that would have been created. -/
theorem dryRun_created_count_cex :
    (importQuestions (.parsed
        [{ code := some "Q1", question := Content.strC "Q?", type := none,
           answers := some [{ id := "A", content := "x" }], correctAnswer := some ["A"],
           explanation := Content.nullC, difficulty := none, source := none,
           version := none, topic := none, tags := none },
         { code := some "Q1", question := Content.strC "Q?", type := none,
           answers := some [{ id := "A", content := "x" }], correctAnswer := some ["A"],
           explanation := Content.nullC, difficulty := none, source := none,
           version := none, topic := none, tags := none }])
      true true (fun _ => true) (fun _ => "t") (fun _ => "r")
      { topics := [], tags := [], codes := [] }).result.created = 2 ∧
    (importQuestions (.parsed
        [{ code := some "Q1", question := Content.strC "Q?", type := none,
           answers := some [{ id := "A", content := "x" }], correctAnswer := some ["A"],
           explanation := Content.nullC, difficulty := none, source := none,
           version := none, topic := none, tags := none },
         { code := some "Q1", question := Content.strC "Q?", type := none,
           answers := some [{ id := "A", content := "x" }], correctAnswer := some ["A"],
           explanation := Content.nullC, difficulty := none, source := none,
           version := none, topic := none, tags := none }])
      true false (fun _ => true) (fun _ => "t") (fun _ => "r")
      { topics := [], tags := [], codes := [] }).result.created = 1 ∧
    (importQuestions (.parsed
        [{ code := some "Q1", question := Content.strC "Q?", type := none,
           answers := some [{ id := "A", content := "x" }], correctAnswer := some ["A"],
           explanation := Content.nullC, difficulty := none, source := none,
           version := none, topic := none, tags := none },
         { code := some "Q1", question := Content.strC "Q?", type := none,
           answers := some [{ id := "A", content := "x" }], correctAnswer := some ["A"],
           explanation := Content.nullC, difficulty := none, source := none,
           version := none, topic := none, tags := none }])
      true false (fun _ => true) (fun _ => "t") (fun _ => "r")
      { topics := [], tags := [], codes := [] }).result.skipped = 1 := by
  refine ⟨?_, ?_, ?_⟩ <;> decide

/-- C2 (amended): with `dryRun = true`, no create request is ever
submitted, for any flags, input records and store responses, in all three
scripts; and the dry-run created count equals the real run's created count
provided every create succeeds and no record's natural key is queried
again by a later record (fresh supplied codes for questions; fresh names
and slugs for tags) — without that proviso a record created mid-run is
seen by a later existence check, which the dry run cannot observe. -/
theorem dryRun_no_creates :
    (∀ (sE : Bool) (ok : Nat → Bool) (store : List String) (rs : List TopicRecord),
      (importQuestionTopics (.parsed rs) sE true ok store).trace = []) ∧
    (∀ (sE : Bool) (ok : Nat → Bool) (store : List TagRow) (rs : List TagRecord),
      (importQuestionTags (.parsed rs) sE true ok store).trace = []) ∧
    (∀ (sE : Bool) (ok : Nat → Bool) (ts rnd : Nat → String) (store : QuestionStore)
        (rs : List QuestionRecord),
      (importQuestions (.parsed rs) sE true ok ts rnd store).trace = []) ∧
    (∀ (sE : Bool) (ts rnd : Nat → String) (store : QuestionStore)
        (rs : List QuestionRecord),
      freshCodes ts rnd 0 rs = true →
      (importQuestions (.parsed rs) sE true (fun _ => true) ts rnd store).result.created =
        (importQuestions (.parsed rs) sE false (fun _ => true) ts rnd store).result.created) ∧
    (∀ (sE : Bool) (store : List TagRow) (rs : List TagRecord),
      freshTagKeys rs = true →
      (importQuestionTags (.parsed rs) sE true (fun _ => true) store).result.created =
        (importQuestionTags (.parsed rs) sE false (fun _ => true) store).result.created) := by
  refine ⟨?_, ?_, ?_, ?_, ?_⟩
  · intro sE ok store rs
    simpa [importQuestionTopics] using goTopics_dry_trace sE ok rs 0 store
  · intro sE ok store rs
    simpa [importQuestionTags] using goTags_dry_trace sE ok rs 0 store
  · intro sE ok ts rnd store rs
    simpa [importQuestions] using goQuestions_dry_trace sE ok ts rnd
      (loadTopicsCache store.topics) (loadTagsCache store.tags) rs 0 store.codes [] []
  · intro sE ts rnd store rs hfresh
    have h := goQuestions_dry_created sE ts rnd
      (loadTopicsCache store.topics) (loadTagsCache store.tags) rs 0 store.codes
      [] [] [] [] [] hfresh (by simp)
    rw [List.append_nil] at h
    simpa [importQuestions] using h.symm
  · intro sE store rs hfresh
    have h := goTags_dry_created sE rs 0 store [] hfresh
      (by intro c hc row hrow; cases hrow) (by intro c hc row hrow; cases hrow)
    rw [List.append_nil] at h
    simpa [importQuestionTags] using h.symm

/-- C2 witness: concrete fresh-keyed runs where the dry and real created
counts agree (two questions with distinct supplied codes; two tags with
distinct names and slugs). -/
theorem dryRun_no_creates_witness :
    (importQuestions (.parsed
        [{ code := some "A1", question := Content.strC "Q?", type := none,
           answers := some [{ id := "A", content := "x" }], correctAnswer := some ["A"],
           explanation := Content.nullC, difficulty := none, source := none,
           version := none, topic := none, tags := none },
         { code := some "A2", question := Content.strC "Q?", type := none,
           answers := some [{ id := "A", content := "x" }], correctAnswer := some ["A"],
           explanation := Content.nullC, difficulty := none, source := none,
           version := none, topic := none, tags := none }])
      true true (fun _ => true) (fun _ => "t") (fun _ => "r")
      { topics := [], tags := [], codes := [] }).result.created =
    (importQuestions (.parsed
        [{ code := some "A1", question := Content.strC "Q?", type := none,
           answers := some [{ id := "A", content := "x" }], correctAnswer := some ["A"],
           explanation := Content.nullC, difficulty := none, source := none,
           version := none, topic := none, tags := none },
         { code := some "A2", question := Content.strC "Q?", type := none,
           answers := some [{ id := "A", content := "x" }], correctAnswer := some ["A"],
           explanation := Content.nullC, difficulty := none, source := none,
           version := none, topic := none, tags := none }])
      true false (fun _ => true) (fun _ => "t") (fun _ => "r")
      { topics := [], tags := [], codes := [] }).result.created ∧
    (importQuestionTags (.parsed
        [{ name := some "X", slug := some "x" }, { name := some "Y", slug := some "y" }])
      true true (fun _ => true) []).result.created =
    (importQuestionTags (.parsed
        [{ name := some "X", slug := some "x" }, { name := some "Y", slug := some "y" }])
      true false (fun _ => true) []).result.created :=
  ⟨dryRun_no_creates.2.2.2.1 true (fun _ => "t") (fun _ => "r")
      { topics := [], tags := [], codes := [] }
      [{ code := some "A1", question := Content.strC "Q?", type := none,
         answers := some [{ id := "A", content := "x" }], correctAnswer := some ["A"],
         explanation := Content.nullC, difficulty := none, source := none,
         version := none, topic := none, tags := none },
       { code := some "A2", question := Content.strC "Q?", type := none,
         answers := some [{ id := "A", content := "x" }], correctAnswer := some ["A"],
         explanation := Content.nullC, difficulty := none, source := none,
         version := none, topic := none, tags := none }] (by decide),
   dryRun_no_creates.2.2.2.2 true []
      [{ name := some "X", slug := some "x" }, { name := some "Y", slug := some "y" }]
      (by decide)⟩

/-- C1 counterexample input: the empty string is falsy in JS, so
`convertToBlocks ""` returns `null`, not a single-paragraph block. -/
theorem convertToBlocks_empty_cex :
    convertToBlocks (Content.strC "") = none ∧
    convertToBlocks (Content.strC "") ≠
      some [{ type := "paragraph", children := [{ type := "text", text := "" }] }] := by
  constructor
  · rfl
  · decide

/-- C1 (amended): for every non-empty plain string, both normalization
functions return exactly one paragraph block whose single text child's text
is the input string; and every array input is returned unchanged. -/
theorem convertToBlocks_correct :
    (∀ s : String, s ≠ "" →
      convertToBlocks (Content.strC s) =
        some [{ type := "paragraph", children := [{ type := "text", text := s }] }] ∧
      convertDescriptionToBlocks (Content.strC s) =
        some [{ type := "paragraph", children := [{ type := "text", text := s }] }]) ∧
    (∀ blocks : List Block,
      convertToBlocks (Content.arrC blocks) = some blocks ∧
      convertDescriptionToBlocks (Content.arrC blocks) = some blocks) := by
  constructor
  · intro s hs
    have h : (s == "") = false := by
      simp [hs]
    constructor
    · simp [convertToBlocks, contentTruthy, h]
    · simp [convertDescriptionToBlocks, contentTruthy, h]
  · intro blocks
    constructor
    · simp [convertToBlocks, contentTruthy]
    · simp [convertDescriptionToBlocks, contentTruthy]

/-- C1 witness: the amended statement evaluated at the concrete string
`"Algebra"` and at a concrete block array. -/
theorem convertToBlocks_correct_witness :
    convertToBlocks (Content.strC "Algebra") =
      some [{ type := "paragraph", children := [{ type := "text", text := "Algebra" }] }] ∧
    convertToBlocks (Content.arrC [{ type := "quote", children := [] }]) =
      some [{ type := "quote", children := [] }] :=
  ⟨(convertToBlocks_correct.1 "Algebra" (by decide)).1,
   (convertToBlocks_correct.2 [{ type := "quote", children := [] }]).1⟩

end CloudExamBE
